import Mathlib

/-!
Shallow embedding of the intelligent multi-phase migration module
(`agent_mcp/core/intelligent_migration.py`): the `ProjectAnalysisChain`
analysis steps (domain analysis, layer classification, dependency
analysis, phase-structure decision) and the `IntelligentMigrationManager`
orchestration over an explicit store state, together with theorems about
the behaviour of those functions.

Python text values are modelled as `List Char`; nullable TEXT columns as
`Option (List Char)`.  `json.loads` / `json.dumps` (from Python's standard
library, used by the module to (de)serialize the `depends_on_tasks` and
`notes` columns) are modelled by an executable fuel-based JSON parser and
printer over a `PyValue` inductive; a failed parse (`none`) corresponds to
`json.loads` raising.  Store I/O failures are modelled by a `FailSpec`
record saying which of the store-touching steps raises; every `try/except`
block of the source is translated to the corresponding case split.
-/

set_option autoImplicit false

namespace IntelligentMigration

abbrev Str := List Char

/-- Lowercasing used for Python's `str.lower` (coincides on ASCII data). -/
def lowerStr (s : Str) : Str := s.map Char.toLower

/-- Prefix test: `strStarts pre hay` holds when `pre` is a prefix of `hay`. -/
def strStarts : Str → Str → Bool
  | [], _ => true
  | _ :: _, [] => false
  | p :: ps, h :: hs => p == h && strStarts ps hs

/-- Substring test: `strHas hay needle` models the Python substring test `needle in hay`. -/
def strHas : Str → Str → Bool
  | [], kw => strStarts kw []
  | h :: t, kw => strStarts kw (h :: t) || strHas t kw

/-- Any keyword of `kws` occurs as a substring of `text`. -/
def anyKw (kws : List Str) (text : Str) : Bool :=
  kws.any (fun k => strHas text k)

def digitChar (d : Nat) : Char := Char.ofNat (48 + d)

def natToStrGo : Nat → Nat → Str
  | 0, _ => []
  | f + 1, n =>
    if n < 10 then [digitChar n]
    else natToStrGo f (n / 10) ++ [digitChar (n % 10)]

/-- Decimal rendering of a natural number, as used by Python f-strings. -/
def natToStr (n : Nat) : Str := natToStrGo (n + 1) n

def apos : Char := Char.ofNat 39

/-- Python values that can appear as results of `json.loads`. -/
inductive PyValue where
  | null
  | bool (b : Bool)
  | int (n : Int)
  | str (s : Str)
  | list (xs : List PyValue)
  | obj (fields : List (Str × PyValue))

mutual

/-- Structural equality modelling Python `==` on JSON-shaped values. -/
def pyBeq : PyValue → PyValue → Bool
  | .null, .null => true
  | .bool a, .bool b => a == b
  | .int a, .int b => a == b
  | .str a, .str b => a == b
  | .list xs, .list ys => pyBeqList xs ys
  | .obj xs, .obj ys => pyBeqFields xs ys
  | _, _ => false

def pyBeqList : List PyValue → List PyValue → Bool
  | [], [] => true
  | x :: xs, y :: ys => pyBeq x y && pyBeqList xs ys
  | _, _ => false

def pyBeqFields : List (Str × PyValue) → List (Str × PyValue) → Bool
  | [], [] => true
  | (k, v) :: xs, (k2, v2) :: ys => k == k2 && pyBeq v v2 && pyBeqFields xs ys
  | _, _ => false

end

/-! ### JSON parsing (model of `json.loads`) -/

def isWs (c : Char) : Bool :=
  c.toNat = 32 || c.toNat = 9 || c.toNat = 10 || c.toNat = 13

def skipWs (s : Str) : Str := s.dropWhile isWs

def isDigit (c : Char) : Bool := 48 ≤ c.toNat && c.toNat ≤ 57

/-- Decode one string-escape character; `none` models a decode error.
Codes: 34 is the double quote, 92 the backslash, 47 the slash (each of
which escapes to itself); the letters n, t, r, b, f select the usual
control characters. -/
def escChar (c : Char) : Option Char :=
  let n := c.toNat
  if n = 34 || n = 92 || n = 47 then some c
  else if n = 110 then some (Char.ofNat 10)
  else if n = 116 then some (Char.ofNat 9)
  else if n = 114 then some (Char.ofNat 13)
  else if n = 98 then some (Char.ofNat 8)
  else if n = 102 then some (Char.ofNat 12)
  else none

/-- Parse the body of a JSON string literal (after the opening quote). -/
def parseStrBody : Nat → Str → Option (Str × Str)
  | 0, _ => none
  | f + 1, s =>
    match s with
    | [] => none
    | c :: rest =>
      if c == '"' then some ([], rest)
      else if c == '\\' then
        match rest with
        | [] => none
        | e :: rest2 =>
          match escChar e with
          | some d =>
            match parseStrBody f rest2 with
            | some (acc, r) => some (d :: acc, r)
            | none => none
          | none => none
      else if c.toNat < 32 then none
      else
        match parseStrBody f rest with
        | some (acc, r) => some (c :: acc, r)
        | none => none

def parseDigits : Nat → Str → Nat → Option (Nat × Str)
  | 0, _, _ => none
  | f + 1, s, acc =>
    match s with
    | [] => some (acc, [])
    | c :: rest =>
      if isDigit c then parseDigits f rest (acc * 10 + (c.toNat - 48))
      else some (acc, c :: rest)

mutual

/-- Parse one JSON value; fuel-based model of Python's `json.loads` core. -/
def parseVal : Nat → Str → Option (PyValue × Str)
  | 0, _ => none
  | f + 1, s =>
    match skipWs s with
    | [] => none
    | c :: rest =>
      if c == 'n' then
        if strStarts ("ull".toList) rest then some (.null, rest.drop 3) else none
      else if c == 't' then
        if strStarts ("rue".toList) rest then some (.bool true, rest.drop 3) else none
      else if c == 'f' then
        if strStarts ("alse".toList) rest then some (.bool false, rest.drop 4) else none
      else if c == '"' then
        match parseStrBody (f + 1) rest with
        | some (str, r) => some (.str str, r)
        | none => none
      else if c == '[' then
        match skipWs rest with
        | ']' :: r => some (.list [], r)
        | r => parseItems f r []
      else if c == '{' then
        match skipWs rest with
        | '}' :: r => some (.obj [], r)
        | r => parseFields f r []
      else if c == '-' then
        match rest with
        | d :: _ =>
          if isDigit d then
            match parseDigits (f + 1) rest 0 with
            | some (n, r) => some (.int (-(Int.ofNat n)), r)
            | none => none
          else none
        | [] => none
      else if isDigit c then
        match parseDigits (f + 1) (c :: rest) 0 with
        | some (n, r) => some (.int (Int.ofNat n), r)
        | none => none
      else none

/-- Parse the remaining items of a JSON array (after at least one item). -/
def parseItems : Nat → Str → List PyValue → Option (PyValue × Str)
  | 0, _, _ => none
  | f + 1, s, acc =>
    match parseVal f s with
    | some (v, r) =>
      match skipWs r with
      | ',' :: r2 => parseItems f r2 (acc ++ [v])
      | ']' :: r2 => some (.list (acc ++ [v]), r2)
      | _ => none
    | none => none

/-- Parse the remaining fields of a JSON object (after at least one field). -/
def parseFields : Nat → Str → List (Str × PyValue) → Option (PyValue × Str)
  | 0, _, _ => none
  | f + 1, s, acc =>
    match skipWs s with
    | '"' :: rest =>
      match parseStrBody (f + 1) rest with
      | some (k, r) =>
        match skipWs r with
        | ':' :: r2 =>
          match parseVal f r2 with
          | some (v, r3) =>
            match skipWs r3 with
            | ',' :: r4 => parseFields f r4 (acc ++ [(k, v)])
            | '}' :: r4 => some (.obj (acc ++ [(k, v)]), r4)
            | _ => none
          | none => none
        | _ => none
      | none => none
    | _ => none

end

/-- Model of `json.loads`: `none` corresponds to the call raising. -/
def jsonLoads (s : Str) : Option PyValue :=
  match parseVal (s.length + 1) s with
  | some (v, r) => if skipWs r = [] then some v else none
  | none => none

/-! ### JSON printing (model of `json.dumps`) -/

/-- Output form of one character inside a dumped string literal: quote
and backslash get a leading backslash; newline, tab and carriage return
become their letter escapes; everything else passes through. -/
def escCharOut (c : Char) : Str :=
  let n := c.toNat
  if n = 34 || n = 92 then [Char.ofNat 92, c]
  else if n = 10 then [Char.ofNat 92, Char.ofNat 110]
  else if n = 9 then [Char.ofNat 92, Char.ofNat 116]
  else if n = 13 then [Char.ofNat 92, Char.ofNat 114]
  else [c]

def escapeStr : Str → Str
  | [] => []
  | c :: t => escCharOut c ++ escapeStr t

def dumpStrLit (s : Str) : Str := '"' :: escapeStr s ++ ['"']

def dumpInt (n : Int) : Str :=
  if n < 0 then '-' :: natToStr n.natAbs else natToStr n.natAbs

def commaJoin (sep : Str) : List Str → Str
  | [] => []
  | [x] => x
  | x :: y :: t => x ++ sep ++ commaJoin sep (y :: t)

/-- Fuel-based body of the `json.dumps` model. -/
def dumpVal : Nat → PyValue → Str
  | 0, _ => []
  | f + 1, v =>
    match v with
    | .null => "null".toList
    | .bool true => "true".toList
    | .bool false => "false".toList
    | .int n => dumpInt n
    | .str s => dumpStrLit s
    | .list xs => '[' :: commaJoin (", ".toList) (xs.map (dumpVal f)) ++ [']']
    | .obj fs =>
      '{' :: commaJoin (", ".toList)
          (fs.map (fun kv => dumpStrLit kv.1 ++ ": ".toList ++ dumpVal f kv.2)) ++ ['}']

mutual

def pySize : PyValue → Nat
  | .null => 1
  | .bool _ => 1
  | .int _ => 1
  | .str _ => 1
  | .list xs => 1 + pySizeList xs
  | .obj fs => 1 + pySizeFields fs

def pySizeList : List PyValue → Nat
  | [] => 0
  | x :: xs => pySize x + pySizeList xs

def pySizeFields : List (Str × PyValue) → Nat
  | [] => 0
  | (_, v) :: xs => pySize v + pySizeFields xs

end

/-- Model of `json.dumps` (Python default separators). -/
def jsonDumps (v : PyValue) : Str := dumpVal (pySize v) v

/-! ### Data model: task rows and the store -/

/-- One row of the `tasks` table, as the Python code sees it after
`dict(row)`; TEXT columns are `Str`, nullable columns `Option Str`. -/
structure TaskRow where
  task_id : Str
  title : Str
  description : Str
  assigned_to : Option Str
  created_by : Str
  status : Str
  priority : Str
  created_at : Str
  updated_at : Str
  parent_task : Option Str
  child_tasks : Option Str
  depends_on_tasks : Option Str
  notes : Option Str
deriving DecidableEq, Repr

/-- One row of the `project_context` table. -/
structure ContextRow where
  context_key : Str
  value : Str
  last_updated : Str
  updated_by : Str
  description : Str
deriving DecidableEq, Repr

/-- The persistent store: the `tasks` table (in `created_at` order) and the
`project_context` table. -/
structure Store where
  tasks : List TaskRow
  project_context : List ContextRow
deriving DecidableEq, Repr

/-- Row lookup, modelling `SELECT * FROM tasks WHERE task_id = ?` (first matching row). -/
def lookupRow (st : Store) (id : Str) : Option TaskRow :=
  st.tasks.find? (fun r => r.task_id == id)

/-- Row update, modelling `UPDATE tasks SET ... WHERE task_id = ?`. -/
def updateRow (st : Store) (id : Str) (f : TaskRow → TaskRow) : Store :=
  { st with tasks := st.tasks.map (fun r => if r.task_id == id then f r else r) }

/-- Upsert modelling `INSERT OR REPLACE INTO project_context ...` keyed on `context_key`. -/
def upsertContext (st : Store) (r : ContextRow) : Store :=
  { st with project_context :=
      if st.project_context.any (fun x => x.context_key == r.context_key) then
        st.project_context.map (fun x => if x.context_key == r.context_key then r else x)
      else st.project_context ++ [r] }

/-! ### Generic dict model (insertion-ordered, overwrite on existing key) -/

/-- Insert into a Python-dict-like association list: overwrite in place if
the key exists, else append at the end. -/
def dictInsert {α : Type} (m : List (Str × α)) (k : Str) (v : α) : List (Str × α) :=
  if m.any (fun p => p.1 == k) then
    m.map (fun p => if p.1 == k then (k, v) else p)
  else m ++ [(k, v)]

/-- Lookup `dict.get(k)` (first — and with `dictInsert`, only — binding). -/
def dictGet? {α : Type} (m : List (Str × α)) (k : Str) : Option α :=
  (m.find? (fun p => p.1 == k)).map (fun p => p.2)

/-! ### Step 1: `analyze_project_domain` -/

def domainIndicators : List (Str × List Str) :=
  [("web_development".toList,
    (["website", "page", "ui", "frontend", "component", "react", "vue",
      "angular", "html", "css", "javascript"].map String.toList)),
   ("backend_development".toList,
    (["api", "server", "database", "auth", "authentication", "endpoint",
      "service", "backend"].map String.toList)),
   ("mobile_development".toList,
    (["mobile", "app", "ios", "android", "react native", "flutter",
      "swift", "kotlin"].map String.toList)),
   ("data_science".toList,
    (["data", "analytics", "ml", "machine learning", "model", "analysis",
      "visualization"].map String.toList)),
   ("devops".toList,
    (["deployment", "ci/cd", "docker", "kubernetes", "infrastructure",
      "monitoring"].map String.toList)),
   ("business_application".toList,
    (["dashboard", "crm", "quote", "customer", "business", "management",
      "workflow"].map String.toList))]

/-- The combined lowercased text of all task titles and descriptions. -/
def combinedText (tasks : List TaskRow) : Str :=
  List.intercalate (" ".toList)
    (tasks.map (fun t => lowerStr (t.title ++ " ".toList ++ t.description)))

def domainScore (text : Str) (kws : List Str) : Nat :=
  (kws.filter (fun k => strHas text k)).length

/-- Model of `max(domain_scores, key=domain_scores.get)`: first key with the maximal
score, in table order. -/
def primaryDomain (scores : List (Str × Nat)) : Str :=
  match scores with
  | [] => []
  | (d, s) :: rest =>
    (rest.foldl (fun best p => if best.2 < p.2 then p else best) (d, s)).1

structure DomainAnalysis where
  primary_domain : Str
  domain_scores : List (Str × Nat)
  project_complexity : Nat
  has_ui_components : Bool
  has_backend_work : Bool
  has_business_logic : Bool
deriving DecidableEq, Repr

/-- Model of `ProjectAnalysisChain.analyze_project_domain`. -/
def analyze_project_domain (tasks : List TaskRow) : DomainAnalysis :=
  let text := combinedText tasks
  let scores := domainIndicators.map (fun p => (p.1, domainScore text p.2))
  { primary_domain := primaryDomain scores
    domain_scores := scores
    project_complexity := tasks.length
    has_ui_components := tasks.any (fun t => strHas (lowerStr t.title) ("component".toList))
    has_backend_work := anyKw (["api", "database", "server"].map String.toList) text
    has_business_logic := anyKw (["quote", "calculator", "business", "workflow"].map String.toList) text }

/-! ### Step 2: `analyze_task_complexity_layers` -/

inductive Layer where
  | infrastructure
  | core_functionality
  | user_interface
  | integration
  | optimization
  | unclassified
deriving DecidableEq, Repr

def infrastructureKws : List Str :=
  ["setup", "config", "install", "database", "schema", "auth",
   "authentication", "environment", "deployment", "infrastructure",
   "basic", "core setup"].map String.toList

def coreFunctionalityKws : List Str :=
  ["calculator", "algorithm", "logic", "processing", "computation",
   "smart", "intelligent", "analysis", "recommendation", "search",
   "filter"].map String.toList

def userInterfaceKws : List Str :=
  ["ui", "interface", "component", "page", "form", "button", "modal",
   "styling", "design", "layout", "responsive", "user experience"].map String.toList

def integrationKws : List Str :=
  ["integration", "api", "service", "workflow", "coordination",
   "communication", "synchronization", "orchestration", "pipeline"].map String.toList

def optimizationKws : List Str :=
  ["optimization", "performance", "improve", "enhance", "polish",
   "refine", "testing", "quality", "monitoring", "analytics",
   "reporting"].map String.toList

/-- The lowercased `f"{title} {description}"` text the classifier tests. -/
def taskText (t : TaskRow) : Str :=
  lowerStr t.title ++ " ".toList ++ lowerStr t.description

/-- The `if/elif` chain of `analyze_task_complexity_layers`: strict
first-match in the fixed priority order. -/
def classifyLayer (t : TaskRow) : Layer :=
  let text := taskText t
  if anyKw infrastructureKws text then .infrastructure
  else if anyKw coreFunctionalityKws text then .core_functionality
  else if anyKw userInterfaceKws text then .user_interface
  else if anyKw integrationKws text then .integration
  else if anyKw optimizationKws text then .optimization
  else .unclassified

structure ComplexityAnalysis where
  infrastructure_tasks : List TaskRow
  core_functionality_tasks : List TaskRow
  user_interface_tasks : List TaskRow
  integration_tasks : List TaskRow
  optimization_tasks : List TaskRow
  unclassified_tasks : List TaskRow
deriving DecidableEq, Repr

/-- Model of `ProjectAnalysisChain.analyze_task_complexity_layers`.  Appending each
task to the bucket of its first matching keyword set, in input order, is
the same as filtering by `classifyLayer`. -/
def analyze_task_complexity_layers (tasks : List TaskRow) : ComplexityAnalysis :=
  { infrastructure_tasks := tasks.filter (fun t => classifyLayer t == .infrastructure)
    core_functionality_tasks := tasks.filter (fun t => classifyLayer t == .core_functionality)
    user_interface_tasks := tasks.filter (fun t => classifyLayer t == .user_interface)
    integration_tasks := tasks.filter (fun t => classifyLayer t == .integration)
    optimization_tasks := tasks.filter (fun t => classifyLayer t == .optimization)
    unclassified_tasks := tasks.filter (fun t => classifyLayer t == .unclassified) }

/-- Bucket selector, for stating partition facts uniformly. -/
def bucketList (ca : ComplexityAnalysis) : Layer → List TaskRow
  | .infrastructure => ca.infrastructure_tasks
  | .core_functionality => ca.core_functionality_tasks
  | .user_interface => ca.user_interface_tasks
  | .integration => ca.integration_tasks
  | .optimization => ca.optimization_tasks
  | .unclassified => ca.unclassified_tasks

/-! ### Step 3: `analyze_task_dependencies` -/

def dependencyPatterns : List (Str × Str) :=
  [("component".toList, "api".toList),
   ("form".toList, "service".toList),
   ("page".toList, "database".toList),
   ("test".toList, "implement".toList),
   ("testing".toList, "feature".toList),
   ("advanced".toList, "basic".toList),
   ("enhancement".toList, "core".toList),
   ("optimization".toList, "implementation".toList),
   ("integration".toList, "component".toList),
   ("workflow".toList, "service".toList)]

/-- Model of `ProjectAnalysisChain._should_depend_on`. -/
def should_depend_on (taskTitle potentialDependencyTitle : Str) : Bool :=
  dependencyPatterns.any (fun p =>
    strHas taskTitle p.1 && strHas potentialDependencyTitle p.2)

structure ImplicitDep where
  dependent : Str
  dependency : Str
  reason : Str
deriving DecidableEq, Repr

/-- The generated reason string
`f"'{task_title}' likely depends on '{other_title}'"`. -/
def mkReason (a b : Str) : Str :=
  apos :: a ++ apos :: " likely depends on ".toList ++ apos :: b ++ [apos]

/-- The implicit pass: every ordered pair of distinct-id tasks whose
lowercased titles match a pattern produces an edge. -/
def implicitDependencies (tasks : List TaskRow) : List ImplicitDep :=
  tasks.flatMap (fun t =>
    (tasks.filter (fun o =>
      !(t.task_id == o.task_id)
        && should_depend_on (lowerStr t.title) (lowerStr o.title))).map
      (fun o =>
        { dependent := t.task_id
          dependency := o.task_id
          reason := mkReason (lowerStr t.title) (lowerStr o.title) }))

/-- The value recorded in `explicit_dependencies` for one task: the raw
field if it is not a string (NULL), else its parse, else `[]` on a parse
error (`except: depends_on = []`). -/
def parseDepsEntry : Option Str → PyValue
  | none => PyValue.null
  | some s =>
    match jsonLoads s with
    | some v => v
    | none => PyValue.list []

structure DependencyAnalysis where
  explicit_dependencies : List (Str × PyValue)
  implicit_dependencies : List ImplicitDep

/-- Model of `ProjectAnalysisChain.analyze_task_dependencies`. -/
def analyze_task_dependencies (tasks : List TaskRow) : DependencyAnalysis :=
  { explicit_dependencies :=
      tasks.foldl (fun m t => dictInsert m t.task_id (parseDepsEntry t.depends_on_tasks)) []
    implicit_dependencies := implicitDependencies tasks }

/-! ### Step 4: `determine_optimal_phases` -/

def pFoundation : Str := "phase_1_foundation".toList
def pIntelligence : Str := "phase_2_intelligence".toList
def pCoordination : Str := "phase_3_coordination".toList
def pOptimization : Str := "phase_4_optimization".toList

structure PhaseRec where
  phase_id : Str
  name : Str
  tasks : List TaskRow
  justification : Str
deriving DecidableEq, Repr

structure PhaseStructure where
  recommended_phases : List PhaseRec
  phase_assignments : List (Str × Str)
  reasoning : List Str
deriving DecidableEq, Repr

/-- Unclassified-task redistribution predicate for the Foundation bucket:
completed tasks, and tasks whose lowercased title has no UI-like keyword. -/
def unclToFoundation (t : TaskRow) : Bool :=
  t.status == "completed".toList
    || !(anyKw (["page", "ui", "interface", "component"].map String.toList)
          (lowerStr t.title))

/-- Unclassified-task redistribution predicate for the Coordination bucket
(the `elif` branch of the loop). -/
def unclToCoordination (t : TaskRow) : Bool :=
  !(t.status == "completed".toList)
    && anyKw (["page", "ui", "interface", "component"].map String.toList)
        (lowerStr t.title)

/-- Value of `foundation_tasks` after the unclassified-task loop. -/
def foundationTasks (ca : ComplexityAnalysis) : List TaskRow :=
  ca.infrastructure_tasks ++ ca.unclassified_tasks.filter unclToFoundation

/-- Value of `coordination_tasks` after the unclassified-task loop. -/
def coordinationTasks (ca : ComplexityAnalysis) : List TaskRow :=
  (ca.user_interface_tasks ++ ca.integration_tasks)
    ++ ca.unclassified_tasks.filter unclToCoordination

/-- The final contents of the (mutated) `foundation_tasks` list: when the
Intelligence threshold fails, `foundation_tasks.extend(intelligence_tasks)`
runs, and the already-appended Foundation phase record aliases this list. -/
def foundationTasksFinal (ca : ComplexityAnalysis) : List TaskRow :=
  foundationTasks ca
    ++ (if 3 ≤ ca.core_functionality_tasks.length then [] else ca.core_functionality_tasks)

def foundationRec (ca : ComplexityAnalysis) : PhaseRec :=
  { phase_id := pFoundation
    name := "Phase 1: Foundation".toList
    tasks := foundationTasksFinal ca
    justification := "Core infrastructure and setup tasks (".toList
      ++ natToStr (foundationTasks ca).length ++ " tasks)".toList }

def intelligenceRec (ca : ComplexityAnalysis) : PhaseRec :=
  { phase_id := pIntelligence
    name := "Phase 2: Intelligence".toList
    tasks := ca.core_functionality_tasks
    justification := "Core business logic and intelligent features (".toList
      ++ natToStr ca.core_functionality_tasks.length ++ " tasks)".toList }

def coordinationRec (ca : ComplexityAnalysis) : PhaseRec :=
  { phase_id := pCoordination
    name := "Phase 3: Coordination".toList
    tasks := coordinationTasks ca
    justification := "User interface and system integration (".toList
      ++ natToStr (coordinationTasks ca).length ++ " tasks)".toList }

def optimizationRec (ca : ComplexityAnalysis) : PhaseRec :=
  { phase_id := pOptimization
    name := "Phase 4: Optimization".toList
    tasks := ca.optimization_tasks
    justification := "Performance, testing, and production readiness (".toList
      ++ natToStr ca.optimization_tasks.length ++ " tasks)".toList }

/-- Value of `recommended_phases` after the Foundation, Intelligence and
Coordination decisions (the value of `available_phases` in the
Optimization `else` branch). -/
def recsFIC (ca : ComplexityAnalysis) : List PhaseRec :=
  (if foundationTasks ca = [] then [] else [foundationRec ca])
    ++ (if 3 ≤ ca.core_functionality_tasks.length then [intelligenceRec ca] else [])
    ++ (if 5 ≤ (coordinationTasks ca).length then [coordinationRec ca] else [])

/-- The full recommended phase list. -/
def recommendedPhases (ca : ComplexityAnalysis) : List PhaseRec :=
  recsFIC ca
    ++ (if 2 ≤ ca.optimization_tasks.length then [optimizationRec ca] else [])

/-- Target phase id for the core-functionality tasks. -/
def intTarget (ca : ComplexityAnalysis) : Str :=
  if 3 ≤ ca.core_functionality_tasks.length then pIntelligence else pFoundation

/-- Target phase id for the coordination tasks; note the fallback tests
`if intelligence_tasks` (bucket non-empty), not phase existence. -/
def coordTarget (ca : ComplexityAnalysis) : Str :=
  if 5 ≤ (coordinationTasks ca).length then pCoordination
  else if ca.core_functionality_tasks = [] then pFoundation else pIntelligence

/-- Target phase id for the optimization tasks:
`available_phases[-1] if available_phases else 'phase_1_foundation'`. -/
def optTarget (ca : ComplexityAnalysis) : Str :=
  if 2 ≤ ca.optimization_tasks.length then pOptimization
  else
    match (recsFIC ca).getLast? with
    | some p => p.phase_id
    | none => pFoundation

/-- Assignment loop `for task in ts: phase_assignments[task_id] = pid`. -/
def assignAll (m : List (Str × Str)) (ts : List TaskRow) (pid : Str) : List (Str × Str) :=
  ts.foldl (fun m t => dictInsert m t.task_id pid) m

/-- The final `phase_assignments` dict, built in source order: foundation
tasks, then core-functionality, then coordination, then optimization. -/
def phaseAssignments (ca : ComplexityAnalysis) : List (Str × Str) :=
  assignAll
    (assignAll
      (assignAll
        (assignAll [] (foundationTasks ca) pFoundation)
        ca.core_functionality_tasks (intTarget ca))
      (coordinationTasks ca) (coordTarget ca))
    ca.optimization_tasks (optTarget ca)

/-- Model of `ProjectAnalysisChain.determine_optimal_phases`. -/
def determine_optimal_phases (da : DomainAnalysis) (ca : ComplexityAnalysis) :
    PhaseStructure :=
  { recommended_phases := recommendedPhases ca
    phase_assignments := phaseAssignments ca
    reasoning :=
      ["Project domain: ".toList ++ da.primary_domain,
       "Total tasks: ".toList ++ natToStr da.project_complexity,
       "Recommended phases: ".toList ++ natToStr (recommendedPhases ca).length,
       "Phase distribution ensures logical progression and proper task grouping".toList] }

/-! ### Migration manager (`IntelligentMigrationManager`) -/

/-- Which store operations raise an I/O failure; each flag corresponds to
one `try/except` region of the source. -/
structure FailSpec where
  failNeedsCheck : Bool
  failLoad : Bool
  failExecute : Bool
  failFix : Bool
  failStatus : Bool
deriving DecidableEq, Repr

def noFail : FailSpec :=
  { failNeedsCheck := false, failLoad := false, failExecute := false
    failFix := false, failStatus := false }

/-- SQLite `task_id LIKE 'phase_%'` (case-insensitive; `_` matches exactly
one character, `%` any remainder). -/
def likePhase (s : Str) : Bool :=
  lowerStr (s.take 5) == "phase".toList && decide (6 ≤ s.length)

/-- Model of `IntelligentMigrationManager._needs_migration`; a store failure is
caught and reported as `False`. -/
def needs_migration (failFlag : Bool) (st : Store) : Bool :=
  if failFlag then false
  else ((st.tasks.filter (fun r => likePhase r.task_id)).length == 0)
    && !st.tasks.isEmpty

/-- Model of `IntelligentMigrationManager._load_all_tasks`; a store failure is
caught and reported as an empty list. -/
def load_all_tasks (failFlag : Bool) (st : Store) : List TaskRow :=
  if failFlag then [] else st.tasks

def phaseDefinition (pid : Str) : Str :=
  if pid == pFoundation then
    "Core system architecture, database, authentication, and basic APIs".toList
  else if pid == pIntelligence then
    "RAG system, embeddings, context management, and AI integration".toList
  else if pid == pCoordination then
    "Multi-agent workflows, task orchestration, and system integration".toList
  else if pid == pOptimization then
    "Performance tuning, scaling, monitoring, and production readiness".toList
  else ("Intelligent phase assignment".toList)

def mkNoteObj (now author content : Str) : PyValue :=
  .obj [("timestamp".toList, .str now),
        ("author".toList, .str author),
        ("content".toList, .str content)]

/-- Model of `IntelligentMigrationManager._create_phase`: existence check, then
insert of the synthetic phase row. -/
def create_phase (st : Store) (now : Str) (p : PhaseRec) : Store :=
  if (lookupRow st p.phase_id).isSome then st
  else
    let descr := phaseDefinition p.phase_id
      ++ "\n\n🧠 AI Analysis: ".toList ++ p.justification
    let content := "🧠 Intelligent migration: Phase created through AI analysis. ".toList
      ++ p.justification ++ ". ".toList ++ natToStr p.tasks.length
      ++ " tasks assigned based on content analysis and dependency reasoning.".toList
    { st with tasks := st.tasks ++
        [{ task_id := p.phase_id
           title := p.name
           description := descr
           assigned_to := none
           created_by := "intelligent_migration".toList
           status := "pending".toList
           priority := "high".toList
           created_at := now
           updated_at := now
           parent_task := none
           child_tasks := some ("[]".toList)
           depends_on_tasks := some ("[]".toList)
           notes := some (jsonDumps (.list
             [mkNoteObj now ("intelligent_migration".toList) content])) }] }

/-- Model of `IntelligentMigrationManager._migrate_task_to_phase`.  Here `none` models
the per-task `except` branch returning `False` (missing row, NULL notes,
unparseable notes, or notes not a JSON array); `some st'` is the updated
cursor state. -/
def migrate_task_to_phase (st : Store) (now : Str) (ps : PhaseStructure)
    (taskId phaseId : Str) : Option Store :=
  match lookupRow st taskId with
  | none => none
  | some task =>
    let parentAndType : Str × Str :=
      match task.parent_task with
      | none => (phaseId, "root_to_phase".toList)
      | some cur =>
        if dictGet? ps.phase_assignments cur == some phaseId then
          (cur, "hierarchy_preserved".toList)
        else (phaseId, "orphan_to_phase".toList)
    match task.notes with
    | none => none
    | some ns =>
      match jsonLoads ns with
      | some (.list cur) =>
        let justification :=
          match ps.recommended_phases.find? (fun p => p.phase_id == phaseId) with
          | some p => p.justification
          | none => "Intelligent analysis".toList
        let content := "🧠 Intelligent migration: Assigned to ".toList ++ phaseId
          ++ " based on AI analysis. ".toList ++ justification
          ++ ". Migration type: ".toList ++ parentAndType.2 ++ ".".toList
        let newNotes := jsonDumps (.list
          (cur ++ [mkNoteObj now ("intelligent_migration".toList) content]))
        some (updateRow st taskId (fun r =>
          { r with parent_task := some parentAndType.1
                   updated_at := now
                   notes := some newNotes }))
      | _ => none

/-- Model of `IntelligentMigrationManager._execute_migration`: create the phases,
then attempt each assignment (per-task failures are swallowed), then
commit.  `failFlag` models a store exception escaping the step: nothing is
committed and the step reports `False`. -/
def execute_migration (failFlag : Bool) (st : Store) (now : Str)
    (ps : PhaseStructure) : Bool × Store :=
  if failFlag then (false, st)
  else
    let st1 := ps.recommended_phases.foldl (fun s p => create_phase s now p) st
    let st2 := ps.phase_assignments.foldl (fun s kv =>
      match migrate_task_to_phase s now ps kv.1 kv.2 with
      | some s2 => s2
      | none => s) st1
    (true, st2)

/-- The dependency-fixing loop body; `none` models an exception escaping
the loop (malformed stored list), in which case nothing is committed. -/
def fixDepsGo (now : Str) : List ImplicitDep → Store → Option Store
  | [], st => some st
  | d :: ds, st =>
    match lookupRow st d.dependent with
    | none => fixDepsGo now ds st
    | some row =>
      match jsonLoads (match row.depends_on_tasks with
        | none => "[]".toList
        | some r => if r = [] then ("[]".toList) else r) with
      | some (.list cur) =>
        if cur.any (fun v => pyBeq v (.str d.dependency)) then fixDepsGo now ds st
        else fixDepsGo now ds (updateRow st d.dependent (fun r =>
          { r with depends_on_tasks := some (jsonDumps (.list (cur ++ [.str d.dependency])))
                   updated_at := now }))
      | _ => none

/-- Model of `IntelligentMigrationManager._fix_dependencies`: best-effort; any
exception is caught and leaves the store as it was before the loop
(the commit is skipped). -/
def fix_dependencies (failFlag : Bool) (st : Store) (now : Str)
    (deps : DependencyAnalysis) : Store :=
  if failFlag then st
  else
    match fixDepsGo now deps.implicit_dependencies st with
    | some st2 => st2
    | none => st

def domainToPy (da : DomainAnalysis) : PyValue :=
  .obj [("primary_domain".toList, .str da.primary_domain),
        ("domain_scores".toList,
          .obj (da.domain_scores.map (fun kv => (kv.1, PyValue.int (Int.ofNat kv.2))))),
        ("project_complexity".toList, .int (Int.ofNat da.project_complexity)),
        ("has_ui_components".toList, .bool da.has_ui_components),
        ("has_backend_work".toList, .bool da.has_backend_work),
        ("has_business_logic".toList, .bool da.has_business_logic)]

def migrationRecord (now : Str) (totalTasks phasesCreated : Nat)
    (da : DomainAnalysis) (ps : PhaseStructure) : PyValue :=
  .obj [("intelligent_migration_completed".toList, .bool true),
        ("migration_timestamp".toList, .str now),
        ("total_tasks_analyzed".toList, .int (Int.ofNat totalTasks)),
        ("phases_created".toList, .int (Int.ofNat phasesCreated)),
        ("migration_method".toList, .str ("ai_powered_multi_phase_analysis".toList)),
        ("domain_analysis".toList, domainToPy da),
        ("phase_structure".toList,
          .obj [("recommended_phases".toList,
                  .int (Int.ofNat ps.recommended_phases.length)),
                ("reasoning".toList, .list (ps.reasoning.map PyValue.str))]),
        ("phase_system_version".toList, .str ("2.0".toList))]

/-- Model of `IntelligentMigrationManager._update_migration_status`; a failure is
caught and leaves the store unchanged. -/
def update_migration_status (failFlag : Bool) (st : Store) (now : Str)
    (totalTasks : Nat) (da : DomainAnalysis) (ps : PhaseStructure) : Store :=
  if failFlag then st
  else upsertContext st
    { context_key := "agent_mcp_intelligent_migration".toList
      value := jsonDumps (migrationRecord now totalTasks ps.recommended_phases.length da ps)
      last_updated := now
      updated_by := "intelligent_migration".toList
      description := "AI-powered intelligent multi-phase migration with dependency optimization".toList }

/-- Model of `IntelligentMigrationManager.run_intelligent_migration` (also the
module-level `run_intelligent_migration` entry point): returns the overall
success flag and the resulting store. -/
def runMigration (fs : FailSpec) (now : Str) (st : Store) : Bool × Store :=
  if !needs_migration fs.failNeedsCheck st then (true, st)
  else
    let all_tasks := load_all_tasks fs.failLoad st
    if all_tasks.isEmpty then (true, st)
    else
      let da := analyze_project_domain all_tasks
      let ca := analyze_task_complexity_layers all_tasks
      let deps := analyze_task_dependencies all_tasks
      let ps := determine_optimal_phases da ca
      let res := execute_migration fs.failExecute st now ps
      if res.1 then
        let st2 := fix_dependencies fs.failFix res.2 now deps
        let st3 := update_migration_status fs.failStatus st2 now all_tasks.length da ps
        (true, st3)
      else (false, res.2)

/-! ### Derived notions and concrete fixtures -/

/-- Some row of the store matches `task_id LIKE 'phase_%'`. -/
def hasPhaseRow (st : Store) : Bool :=
  st.tasks.any (fun r => likePhase r.task_id)

/-- Keys of a dict model, in insertion order. -/
def dictKeys {α : Type} (m : List (Str × α)) : List Str := m.map Prod.fst

/-- Concatenation of the six layer buckets, for partition hypotheses. -/
def allBuckets (ca : ComplexityAnalysis) : List TaskRow :=
  ca.infrastructure_tasks ++ ca.core_functionality_tasks
    ++ ca.user_interface_tasks ++ ca.integration_tasks
    ++ ca.optimization_tasks ++ ca.unclassified_tasks

/-- Fixture constructor: a plain pending task row with empty serialized
lists, as produced by normal store usage. -/
def sampleTask (id title : String) : TaskRow :=
  { task_id := id.toList
    title := title.toList
    description := "".toList
    assigned_to := none
    created_by := "user".toList
    status := "pending".toList
    priority := "medium".toList
    created_at := "2024-01-01T00:00:00".toList
    updated_at := "2024-01-01T00:00:00".toList
    parent_task := none
    child_tasks := some ("[]".toList)
    depends_on_tasks := some ("[]".toList)
    notes := some ("[]".toList) }

def taskAlg : TaskRow := sampleTask ("t1") ("algorithm")

/-- Store with a single core-functionality task: its analysis recommends
no phase at all. -/
def storeAlg : Store := { tasks := [taskAlg], project_context := [] }

def taskAlg2 : TaskRow := sampleTask ("a1") ("algorithm")
def taskButton : TaskRow := sampleTask ("a2") ("button")

def taskSetup : TaskRow := sampleTask ("s1") ("setup database")

/-- Store with a single infrastructure task: its analysis recommends a
Foundation phase. -/
def storeSetup : Store := { tasks := [taskSetup], project_context := [] }

def failNeedsOnly : FailSpec := { noFail with failNeedsCheck := true }

def storeC4 : Store := { tasks := [sampleTask ("s2") ("setup auth")], project_context := [] }

/-- Fixture for the reparenting theorem: a task with a parent assigned to
a different phase. -/
def taskChild : TaskRow :=
  { sampleTask ("c1") ("child work") with parent_task := some ("par1".toList) }

def storeC5 : Store := { tasks := [taskChild], project_context := [] }

def psC5 : PhaseStructure :=
  { recommended_phases := []
    phase_assignments := [("par1".toList, pIntelligence), ("c1".toList, pFoundation)]
    reasoning := [] }

/-- Fixture for the bad-notes theorem: one task with NULL notes and one
healthy task, both assigned to Foundation. -/
def taskBadNotes : TaskRow := { sampleTask ("b1") ("first job") with notes := none }
def taskGoodNotes : TaskRow := sampleTask ("b2") ("second job")

def storeC10 : Store :=
  { tasks := [taskBadNotes, taskGoodNotes], project_context := [] }

def psC10 : PhaseStructure :=
  { recommended_phases := []
    phase_assignments := [("b1".toList, pFoundation), ("b2".toList, pFoundation)]
    reasoning := [] }

def taskBadDeps : TaskRow :=
  { sampleTask ("d1") ("alpha job") with depends_on_tasks := some ("not json".toList) }

def nowW : Str := "2024-06-01T00:00:00".toList

def caTwoCore : ComplexityAnalysis :=
  { infrastructure_tasks := []
    core_functionality_tasks := [sampleTask ("k1") ("one"), sampleTask ("k2") ("two")]
    user_interface_tasks := []
    integration_tasks := []
    optimization_tasks := []
    unclassified_tasks := [] }

def caThreeCore : ComplexityAnalysis :=
  { infrastructure_tasks := []
    core_functionality_tasks :=
      [sampleTask ("k1") ("one"), sampleTask ("k2") ("two"), sampleTask ("k3") ("three")]
    user_interface_tasks := []
    integration_tasks := []
    optimization_tasks := []
    unclassified_tasks := [] }

/-! ## Substring lemmas -/

theorem strStarts_nil_right {kw : Str} (h : strStarts kw [] = true) : kw = [] := by
  cases kw with
  | nil => rfl
  | cons p ps => simp [strStarts] at h

theorem strStarts_append {kw : Str} {a : Str} (b : Str) (h : strStarts kw a = true) :
    strStarts kw (a ++ b) = true := by
  induction kw generalizing a with
  | nil => simp [strStarts]
  | cons p ps ih =>
    cases a with
    | nil => simp [strStarts] at h
    | cons x xs =>
      simp only [strStarts, Bool.and_eq_true] at h
      have h2 : strStarts ps (xs ++ b) = true := ih h.2
      simp [List.cons_append, strStarts, h.1, h2]

theorem strHas_nil_needle (s : Str) : strHas s [] = true := by
  cases s with
  | nil => rfl
  | cons h t => simp [strHas, strStarts]

theorem strHas_append_left {a : Str} (kw b : Str) (h : strHas a kw = true) :
    strHas (a ++ b) kw = true := by
  induction a with
  | nil =>
    have hk : kw = [] := strStarts_nil_right (by simpa [strHas] using h)
    subst hk
    simpa using strHas_nil_needle b
  | cons x xs ih =>
    simp only [strHas, Bool.or_eq_true] at h
    rcases h with h | h
    · have := strStarts_append (a := x :: xs) b h
      simpa [strHas] using Or.inl this
    · simpa [strHas] using Or.inr (ih h)

/-! ## Dict lemmas -/

theorem find?_overwrite {α : Type} (m : List (Str × α)) (k k' : Str) (v : α)
    (hne : k' ≠ k) :
    (m.map (fun p => if p.1 == k then (k, v) else p)).find? (fun p => p.1 == k')
      = m.find? (fun p => p.1 == k') := by
  induction m with
  | nil => rfl
  | cons p m' ih =>
    rw [List.map_cons]
    by_cases hpk : p.1 = k
    · have hhead : (if p.1 == k then (k, v) else p) = (k, v) := by simp [hpk]
      rw [hhead, List.find?_cons_of_neg _ (by simpa using fun h => hne h.symm),
        List.find?_cons_of_neg _ (by simpa [hpk] using fun h => hne h.symm)]
      exact ih
    · have hhead : (if p.1 == k then (k, v) else p) = p := by simp [hpk]
      rw [hhead]
      by_cases hpk' : p.1 = k'
      · rw [List.find?_cons_of_pos _ (by simpa using hpk'),
          List.find?_cons_of_pos _ (by simpa using hpk')]
      · rw [List.find?_cons_of_neg _ (by simpa using hpk'),
          List.find?_cons_of_neg _ (by simpa using hpk')]
        exact ih

theorem find?_overwrite_self {α : Type} (m : List (Str × α)) (k : Str) (v : α)
    (h : m.any (fun p => p.1 == k) = true) :
    (m.map (fun p => if p.1 == k then (k, v) else p)).find? (fun p => p.1 == k)
      = some (k, v) := by
  induction m with
  | nil => simp at h
  | cons p m' ih =>
    rw [List.map_cons]
    by_cases hpk : p.1 = k
    · have hhead : (if p.1 == k then (k, v) else p) = (k, v) := by simp [hpk]
      have hp2 : (((k, v) : Str × α).1 == k) = true := by simp
      rw [hhead]
      exact List.find?_cons_of_pos _ hp2
    · have hhead : (if p.1 == k then (k, v) else p) = p := by simp [hpk]
      have h' : m'.any (fun q => q.1 == k) = true := by
        rw [List.any_cons] at h
        rcases Bool.or_eq_true_iff.mp h with h1 | h1
        · exact absurd (beq_iff_eq.mp h1) hpk
        · exact h1
      have hp2 : ¬ ((p.1 == k) = true) := by simpa using hpk
      rw [hhead,
        @List.find?_cons_of_neg _ (fun q => q.1 == k) p
          (m'.map (fun q => if q.1 == k then (k, v) else q)) hp2]
      exact ih h'

theorem dictGet?_insert_self {α : Type} (m : List (Str × α)) (k : Str) (v : α) :
    dictGet? (dictInsert m k v) k = some v := by
  unfold dictInsert
  by_cases h : m.any (fun p => p.1 == k) = true
  · rw [if_pos h]
    show ((m.map (fun p => if p.1 == k then (k, v) else p)).find?
      (fun p => p.1 == k)).map (fun p => p.2) = some v
    rw [find?_overwrite_self m k v h]
    rfl
  · rw [if_neg h]
    show ((m ++ [(k, v)]).find? (fun p => p.1 == k)).map (fun p => p.2) = some v
    rw [List.find?_append]
    have hm : m.find? (fun p => p.1 == k) = none := by
      rw [List.find?_eq_none]
      intro x hx
      exact fun hbx => h (List.any_eq_true.mpr ⟨x, hx, hbx⟩)
    have hpos : List.find? (fun p : Str × α => p.1 == k) [(k, v)] = some (k, v) := by
      simp [List.find?]
    rw [hm, Option.none_or, hpos]
    rfl

theorem dictGet?_insert_ne {α : Type} (m : List (Str × α)) (k k' : Str) (v : α)
    (hne : k' ≠ k) :
    dictGet? (dictInsert m k v) k' = dictGet? m k' := by
  unfold dictInsert
  by_cases h : m.any (fun p => p.1 == k) = true
  · rw [if_pos h]
    show ((m.map (fun p => if p.1 == k then (k, v) else p)).find?
      (fun p => p.1 == k')).map (fun p => p.2) = dictGet? m k'
    rw [find?_overwrite m k k' v hne]
    rfl
  · rw [if_neg h]
    show ((m ++ [(k, v)]).find? (fun p => p.1 == k')).map (fun p => p.2) = dictGet? m k'
    rw [List.find?_append]
    have hlast : List.find? (fun p : Str × α => p.1 == k') [(k, v)] = none := by
      rw [List.find?_eq_none]
      intro x hx
      rcases List.mem_singleton.mp hx with rfl
      simp only [beq_iff_eq]
      exact fun hh => hne hh.symm
    rw [hlast, Option.or_none]
    rfl

theorem dictKeys_insert {α : Type} (m : List (Str × α)) (k : Str) (v : α) :
    dictKeys (dictInsert m k v)
      = if m.any (fun p => p.1 == k) = true then dictKeys m else dictKeys m ++ [k] := by
  unfold dictInsert dictKeys
  by_cases h : m.any (fun p => p.1 == k) = true
  · rw [if_pos h, if_pos h, List.map_map]
    refine List.map_congr_left (fun p _ => ?_)
    by_cases hpk : p.1 = k <;> simp [hpk]
  · rw [if_neg h, if_neg h, List.map_append]
    rfl

theorem any_key_iff_mem_dictKeys {α : Type} (m : List (Str × α)) (k : Str) :
    m.any (fun p => p.1 == k) = true ↔ k ∈ dictKeys m := by
  induction m with
  | nil => simp [dictKeys]
  | cons p m' ih =>
    rw [List.any_cons, dictKeys, List.map_cons]
    constructor
    · intro h
      rcases Bool.or_eq_true_iff.mp h with h1 | h1
      · exact List.mem_cons.mpr (Or.inl (beq_iff_eq.mp h1).symm)
      · exact List.mem_cons.mpr (Or.inr (ih.mp h1))
    · intro h
      rcases List.mem_cons.mp h with h1 | h1
      · exact Bool.or_eq_true_iff.mpr (Or.inl (beq_iff_eq.mpr h1.symm))
      · exact Bool.or_eq_true_iff.mpr (Or.inr (ih.mpr h1))

theorem mem_dictKeys_insert {α : Type} (m : List (Str × α)) (k a : Str) (v : α) :
    a ∈ dictKeys (dictInsert m k v) ↔ a ∈ dictKeys m ∨ a = k := by
  rw [dictKeys_insert]
  by_cases h : m.any (fun p => p.1 == k) = true
  · rw [if_pos h]
    constructor
    · exact Or.inl
    · rintro (ha | rfl)
      · exact ha
      · exact (any_key_iff_mem_dictKeys m a).mp h
  · rw [if_neg h]
    simp

theorem nodup_dictKeys_insert {α : Type} (m : List (Str × α)) (k : Str) (v : α)
    (h : (dictKeys m).Nodup) : (dictKeys (dictInsert m k v)).Nodup := by
  rw [dictKeys_insert]
  by_cases ha : m.any (fun p => p.1 == k) = true
  · rwa [if_pos ha]
  · rw [if_neg ha]
    have hk : k ∉ dictKeys m := fun hm => ha ((any_key_iff_mem_dictKeys m k).mpr hm)
    simp [List.nodup_append, h, hk]

theorem mem_dictInsert {α : Type} (m : List (Str × α)) (k : Str) (v : α)
    (kv : Str × α) (h : kv ∈ dictInsert m k v) : kv.2 = v ∨ kv ∈ m := by
  unfold dictInsert at h
  by_cases ha : m.any (fun p => p.1 == k) = true
  · rw [if_pos ha] at h
    rcases List.mem_map.mp h with ⟨p, hp, hkv⟩
    by_cases hpk : p.1 = k
    · simp only [hpk, beq_self_eq_true, if_true] at hkv
      exact Or.inl (by rw [← hkv])
    · simp only [beq_iff_eq, hpk, if_false] at hkv
      exact Or.inr (hkv ▸ hp)
  · rw [if_neg ha] at h
    rcases List.mem_append.mp h with h | h
    · exact Or.inr h
    · rcases List.mem_singleton.mp h with rfl
      exact Or.inl rfl

theorem dictGet?_isSome_iff {α : Type} (m : List (Str × α)) (k : Str) :
    (dictGet? m k).isSome = true ↔ k ∈ dictKeys m := by
  rw [← any_key_iff_mem_dictKeys]
  unfold dictGet?
  induction m with
  | nil => simp
  | cons p m' ih =>
    by_cases hp : p.1 = k
    · simp [List.find?_cons, List.any_cons, hp]
    · have hb : (p.1 == k) = false := by simpa using hp
      simp only [List.find?_cons, hb, List.any_cons, Bool.false_or]
      exact ih

/-! ## Fold-insert lemmas -/

theorem dictGet?_foldInsert_not_mem {α : Type} (g : TaskRow → α) (ts : List TaskRow)
    (m : List (Str × α)) (k : Str) (h : k ∉ ts.map (fun t => t.task_id)) :
    dictGet? (ts.foldl (fun m t => dictInsert m t.task_id (g t)) m) k = dictGet? m k := by
  induction ts generalizing m with
  | nil => rfl
  | cons t ts' ih =>
    rw [List.map_cons, List.mem_cons] at h
    push_neg at h
    rw [List.foldl_cons, ih _ h.2, dictGet?_insert_ne _ _ _ _ h.1]

theorem mem_dictKeys_foldInsert {α : Type} (g : TaskRow → α) (ts : List TaskRow)
    (m : List (Str × α)) (a : Str) :
    a ∈ dictKeys (ts.foldl (fun m t => dictInsert m t.task_id (g t)) m)
      ↔ a ∈ dictKeys m ∨ a ∈ ts.map (fun t => t.task_id) := by
  induction ts generalizing m with
  | nil => simp
  | cons t ts' ih =>
    rw [List.foldl_cons, ih, mem_dictKeys_insert, List.map_cons, List.mem_cons]
    tauto

theorem nodup_dictKeys_foldInsert {α : Type} (g : TaskRow → α) (ts : List TaskRow)
    (m : List (Str × α)) (h : (dictKeys m).Nodup) :
    (dictKeys (ts.foldl (fun m t => dictInsert m t.task_id (g t)) m)).Nodup := by
  induction ts generalizing m with
  | nil => exact h
  | cons t ts' ih =>
    rw [List.foldl_cons]
    exact ih _ (nodup_dictKeys_insert _ _ _ h)

theorem dictGet?_foldInsert_nodup {α : Type} (g : TaskRow → α) (ts : List TaskRow)
    (m : List (Str × α)) (t : TaskRow)
    (hnd : (ts.map (fun t => t.task_id)).Nodup) (ht : t ∈ ts) :
    dictGet? (ts.foldl (fun m t => dictInsert m t.task_id (g t)) m) t.task_id
      = some (g t) := by
  induction ts generalizing m with
  | nil => cases ht
  | cons u ts' ih =>
    rw [List.map_cons, List.nodup_cons] at hnd
    rcases List.mem_cons.mp ht with rfl | hmem
    · rw [List.foldl_cons, dictGet?_foldInsert_not_mem g ts' _ _ hnd.1,
        dictGet?_insert_self]
    · rw [List.foldl_cons]
      exact ih _ hnd.2 hmem

theorem dictGet?_assignAll_not_mem (ts : List TaskRow) (m : List (Str × Str))
    (pid k : Str) (h : k ∉ ts.map (fun t => t.task_id)) :
    dictGet? (assignAll m ts pid) k = dictGet? m k :=
  dictGet?_foldInsert_not_mem (fun _ => pid) ts m k h

theorem dictGet?_assignAll_mem (ts : List TaskRow) (m : List (Str × Str))
    (pid k : Str) (h : k ∈ ts.map (fun t => t.task_id)) :
    dictGet? (assignAll m ts pid) k = some pid := by
  induction ts generalizing m with
  | nil => cases h
  | cons t ts' ih =>
    show dictGet? (assignAll (dictInsert m t.task_id pid) ts' pid) k = some pid
    by_cases hk : k ∈ ts'.map (fun t => t.task_id)
    · exact ih _ hk
    · rcases List.mem_cons.mp h with heq | hmem
      · rw [dictGet?_assignAll_not_mem ts' _ pid k hk, heq, dictGet?_insert_self]
      · exact absurd hmem hk

theorem mem_dictKeys_assignAll (ts : List TaskRow) (m : List (Str × Str))
    (pid a : Str) :
    a ∈ dictKeys (assignAll m ts pid)
      ↔ a ∈ dictKeys m ∨ a ∈ ts.map (fun t => t.task_id) :=
  mem_dictKeys_foldInsert (fun _ => pid) ts m a

theorem nodup_dictKeys_assignAll (ts : List TaskRow) (m : List (Str × Str))
    (pid : Str) (h : (dictKeys m).Nodup) :
    (dictKeys (assignAll m ts pid)).Nodup :=
  nodup_dictKeys_foldInsert (fun _ => pid) ts m h

theorem mem_assignAll (ts : List TaskRow) (m : List (Str × Str)) (pid : Str)
    (kv : Str × Str) (h : kv ∈ assignAll m ts pid) : kv.2 = pid ∨ kv ∈ m := by
  induction ts generalizing m with
  | nil => exact Or.inr h
  | cons t ts' ih =>
    rcases ih _ h with hv | hmem
    · exact Or.inl hv
    · exact mem_dictInsert m t.task_id pid kv hmem

/-! ## Claim 7: layer classification is strict first-match and a partition -/

/-- C7: the layer classifier assigns each task to the first bucket, in the
fixed order infrastructure, core_functionality, user_interface,
integration, optimization, whose keyword set hits the lowercased
title+description (so a task matching both an infrastructure and a
user_interface keyword lands in infrastructure), a task with no hit goes
to unclassified, and the six buckets partition the input: a task is in
bucket `L` iff it is an input task classified `L` (hence in exactly one
bucket, since `classifyLayer` is a function). -/
theorem claim7_layer_first_match (tasks : List TaskRow) (L : Layer) (t : TaskRow) :
    (t ∈ bucketList (analyze_task_complexity_layers tasks) L
      ↔ (t ∈ tasks ∧ classifyLayer t = L))
    ∧ (classifyLayer t = Layer.infrastructure
        ↔ anyKw infrastructureKws (taskText t) = true)
    ∧ (classifyLayer t = Layer.core_functionality
        ↔ (anyKw infrastructureKws (taskText t) = false
            ∧ anyKw coreFunctionalityKws (taskText t) = true))
    ∧ (classifyLayer t = Layer.user_interface
        ↔ (anyKw infrastructureKws (taskText t) = false
            ∧ anyKw coreFunctionalityKws (taskText t) = false
            ∧ anyKw userInterfaceKws (taskText t) = true))
    ∧ (classifyLayer t = Layer.integration
        ↔ (anyKw infrastructureKws (taskText t) = false
            ∧ anyKw coreFunctionalityKws (taskText t) = false
            ∧ anyKw userInterfaceKws (taskText t) = false
            ∧ anyKw integrationKws (taskText t) = true))
    ∧ (classifyLayer t = Layer.optimization
        ↔ (anyKw infrastructureKws (taskText t) = false
            ∧ anyKw coreFunctionalityKws (taskText t) = false
            ∧ anyKw userInterfaceKws (taskText t) = false
            ∧ anyKw integrationKws (taskText t) = false
            ∧ anyKw optimizationKws (taskText t) = true))
    ∧ (classifyLayer t = Layer.unclassified
        ↔ (anyKw infrastructureKws (taskText t) = false
            ∧ anyKw coreFunctionalityKws (taskText t) = false
            ∧ anyKw userInterfaceKws (taskText t) = false
            ∧ anyKw integrationKws (taskText t) = false
            ∧ anyKw optimizationKws (taskText t) = false)) := by
  constructor
  · cases L <;>
      simp [bucketList, analyze_task_complexity_layers, List.mem_filter]
  · simp only [classifyLayer]
    split_ifs with h1 h2 h3 h4 h5 <;>
      simp_all [Bool.not_eq_true]

/-! ## Claim 9: implicit dependency edges -/

/-- C9: for tasks A and B in the input, the dependency analyzer records an
inferred edge from A's id to B's id (carrying the generated reason string)
iff the ids are distinct and some (dependent_keyword, dependency_keyword)
pair of the fixed pattern table matches: the dependent keyword occurs in
A's lowercased title and the dependency keyword in B's. -/
theorem claim9_implicit_dependency_iff (tasks : List TaskRow) (a b : Str) :
    ((analyze_task_dependencies tasks).implicit_dependencies.any
        (fun e => e.dependent == a && e.dependency == b)) = true
      ↔ ∃ A ∈ tasks, ∃ B ∈ tasks,
          A.task_id = a ∧ B.task_id = b ∧ A.task_id ≠ B.task_id
          ∧ ∃ p ∈ dependencyPatterns,
              strHas (lowerStr A.title) p.1 = true
                ∧ strHas (lowerStr B.title) p.2 = true := by
  show (implicitDependencies tasks).any _ = true ↔ _
  unfold implicitDependencies
  rw [List.any_eq_true]
  constructor
  · rintro ⟨e, he, hab⟩
    obtain ⟨A, hA, he⟩ := List.mem_flatMap.mp he
    obtain ⟨B, hB, rfl⟩ := List.mem_map.mp he
    rw [List.mem_filter] at hB
    have hpred := hB.2
    rw [Bool.and_eq_true] at hpred
    have hne : A.task_id ≠ B.task_id := by
      intro hcon
      rw [hcon] at hpred
      simp at hpred
    have hdep := hpred.2
    unfold should_depend_on at hdep
    rw [List.any_eq_true] at hdep
    obtain ⟨p, hp, hpair⟩ := hdep
    rw [Bool.and_eq_true] at hpair
    rw [Bool.and_eq_true] at hab
    refine ⟨A, hA, B, hB.1, beq_iff_eq.mp hab.1, beq_iff_eq.mp hab.2, hne,
      p, hp, hpair.1, hpair.2⟩
  · rintro ⟨A, hA, B, hB, rfl, rfl, hne, p, hp, h1, h2⟩
    refine ⟨{ dependent := A.task_id, dependency := B.task_id
              reason := mkReason (lowerStr A.title) (lowerStr B.title) }, ?_, ?_⟩
    · rw [List.mem_flatMap]
      refine ⟨A, hA, ?_⟩
      rw [List.mem_map]
      refine ⟨B, ?_, rfl⟩
      rw [List.mem_filter]
      refine ⟨hB, ?_⟩
      rw [Bool.and_eq_true]
      constructor
      · simpa using hne
      · unfold should_depend_on
        rw [List.any_eq_true]
        exact ⟨p, hp, by rw [Bool.and_eq_true]; exact ⟨h1, h2⟩⟩
    · simp

/-! ## Claim 8: malformed stored dependency values -/

/-- C8: a task whose stored `depends_on_tasks` field is a string the JSON
decoder rejects is recorded in the explicit-dependency map with an empty
dependency list (the failed parse is replaced by `[]`, not raised), and
every input task gets exactly one entry in that map (the pass is total). -/
theorem claim8_malformed_dependencies (tasks : List TaskRow) (t : TaskRow) (s : Str)
    (hnd : (tasks.map (fun t => t.task_id)).Nodup)
    (ht : t ∈ tasks)
    (hs : t.depends_on_tasks = some s)
    (hbad : jsonLoads s = none) :
    dictGet? (analyze_task_dependencies tasks).explicit_dependencies t.task_id
        = some (PyValue.list [])
    ∧ ∀ u ∈ tasks,
        (dictGet? (analyze_task_dependencies tasks).explicit_dependencies u.task_id).isSome
          = true := by
  constructor
  · have h := dictGet?_foldInsert_nodup
      (fun t => parseDepsEntry t.depends_on_tasks) tasks [] t hnd ht
    show dictGet?
      (tasks.foldl (fun m t => dictInsert m t.task_id (parseDepsEntry t.depends_on_tasks)) [])
      t.task_id = some (PyValue.list [])
    rw [h]
    simp [parseDepsEntry, hs, hbad]
  · intro u hu
    show (dictGet?
      (tasks.foldl (fun m t => dictInsert m t.task_id (parseDepsEntry t.depends_on_tasks)) [])
      u.task_id).isSome = true
    rw [dictGet?_isSome_iff, mem_dictKeys_foldInsert]
    exact Or.inr (List.mem_map.mpr ⟨u, hu, rfl⟩)

/-- Witness for C8 at a concrete store: the task `d1` stores the
unparseable dependency value `not json`. -/
theorem claim8_malformed_dependencies_witness :
    dictGet? (analyze_task_dependencies [taskBadDeps]).explicit_dependencies
        taskBadDeps.task_id = some (PyValue.list [])
    ∧ ∀ u ∈ [taskBadDeps],
        (dictGet? (analyze_task_dependencies [taskBadDeps]).explicit_dependencies
          u.task_id).isSome = true :=
  claim8_malformed_dependencies [taskBadDeps] taskBadDeps ("not json".toList)
    (by decide) (by simp) (by rfl) (by rfl)

/-! ## Row update and lookup lemmas -/

theorem find?_update_list_self (l : List TaskRow) (id : Str) (f : TaskRow → TaskRow)
    (row : TaskRow) (hf : ∀ r, (f r).task_id = r.task_id)
    (h : l.find? (fun r => r.task_id == id) = some row) :
    (l.map (fun r => if r.task_id == id then f r else r)).find?
      (fun r => r.task_id == id) = some (f row) := by
  induction l with
  | nil => simp at h
  | cons r l' ih =>
    rw [List.map_cons]
    by_cases hr : r.task_id = id
    · have hb : (r.task_id == id) = true := beq_iff_eq.mpr hr
      rw [@List.find?_cons_of_pos _ (fun r => r.task_id == id) r l' hb] at h
      have hbf : ((f r).task_id == id) = true := by rw [hf r]; exact hb
      rw [if_pos hb,
        @List.find?_cons_of_pos _ (fun r => r.task_id == id) (f r)
          (l'.map (fun r => if r.task_id == id then f r else r)) hbf]
      exact congrArg (fun x => some (f x)) (Option.some.inj h)
    · have hb : ¬ ((r.task_id == id) = true) := by simpa using hr
      rw [@List.find?_cons_of_neg _ (fun r => r.task_id == id) r l' hb] at h
      rw [if_neg hb,
        @List.find?_cons_of_neg _ (fun r => r.task_id == id) r
          (l'.map (fun r => if r.task_id == id then f r else r)) hb]
      exact ih h

theorem find?_update_list_ne (l : List TaskRow) (id k : Str) (f : TaskRow → TaskRow)
    (hf : ∀ r, (f r).task_id = r.task_id) (hne : k ≠ id) :
    (l.map (fun r => if r.task_id == id then f r else r)).find?
      (fun r => r.task_id == k) = l.find? (fun r => r.task_id == k) := by
  induction l with
  | nil => rfl
  | cons r l' ih =>
    rw [List.map_cons]
    by_cases hr : r.task_id = id
    · have hb : (r.task_id == id) = true := beq_iff_eq.mpr hr
      have hbk : ¬ ((r.task_id == k) = true) := by
        simp only [beq_iff_eq, hr]
        exact fun hh => hne hh.symm
      have hbfk : ¬ (((f r).task_id == k) = true) := by rw [hf r]; exact hbk
      rw [if_pos hb,
        @List.find?_cons_of_neg _ (fun r => r.task_id == k) (f r)
          (l'.map (fun r => if r.task_id == id then f r else r)) hbfk,
        @List.find?_cons_of_neg _ (fun r => r.task_id == k) r l' hbk]
      exact ih
    · have hb : ¬ ((r.task_id == id) = true) := by simpa using hr
      rw [if_neg hb]
      by_cases hrk : r.task_id = k
      · have hbk : (r.task_id == k) = true := beq_iff_eq.mpr hrk
        rw [@List.find?_cons_of_pos _ (fun r => r.task_id == k) r
            (l'.map (fun r => if r.task_id == id then f r else r)) hbk,
          @List.find?_cons_of_pos _ (fun r => r.task_id == k) r l' hbk]
      · have hbk : ¬ ((r.task_id == k) = true) := by simpa using hrk
        rw [@List.find?_cons_of_neg _ (fun r => r.task_id == k) r
            (l'.map (fun r => if r.task_id == id then f r else r)) hbk,
          @List.find?_cons_of_neg _ (fun r => r.task_id == k) r l' hbk]
        exact ih

theorem lookupRow_updateRow_self (st : Store) (id : Str) (f : TaskRow → TaskRow)
    (row : TaskRow) (hf : ∀ r, (f r).task_id = r.task_id)
    (h : lookupRow st id = some row) :
    lookupRow (updateRow st id f) id = some (f row) :=
  find?_update_list_self st.tasks id f row hf h

theorem lookupRow_updateRow_ne (st : Store) (id k : Str) (f : TaskRow → TaskRow)
    (hf : ∀ r, (f r).task_id = r.task_id) (hne : k ≠ id) :
    lookupRow (updateRow st id f) k = lookupRow st k :=
  find?_update_list_ne st.tasks id k f hf hne

theorem lookupRow_create_phase (st : Store) (now : Str) (p : PhaseRec)
    (k : Str) (row : TaskRow) (h : lookupRow st k = some row) :
    lookupRow (create_phase st now p) k = some row := by
  unfold create_phase
  by_cases hex : (lookupRow st p.phase_id).isSome = true
  · rw [if_pos hex]
    exact h
  · rw [if_neg hex]
    show (st.tasks ++ _).find? (fun r => r.task_id == k) = some row
    rw [List.find?_append]
    show (lookupRow st k).or _ = some row
    rw [h]
    rfl

theorem lookupRow_createFold (recs : List PhaseRec) (st : Store) (now : Str)
    (k : Str) (row : TaskRow) (h : lookupRow st k = some row) :
    lookupRow (recs.foldl (fun s p => create_phase s now p) st) k = some row := by
  induction recs generalizing st with
  | nil => exact h
  | cons p recs' ih =>
    exact ih _ (lookupRow_create_phase st now p k row h)

/-- Shape of a successful per-task migration: it is a row update at the
task's id whose update function preserves the id. -/
theorem migrate_some_shape (st : Store) (now : Str) (ps : PhaseStructure)
    (a pid : Str) (st' : Store)
    (h : migrate_task_to_phase st now ps a pid = some st') :
    ∃ f, (∀ r, (f r).task_id = r.task_id) ∧ st' = updateRow st a f := by
  unfold migrate_task_to_phase at h
  repeat' split at h
  all_goals
    first
      | exact Option.noConfusion h
      | (refine ⟨_, ?_, (Option.some.inj h).symm⟩
         exact fun r => rfl)

/-- A task whose notes are NULL or unparseable fails its per-task
migration (the per-task exception handler returns `False`). -/
theorem migrate_bad_notes_none (st : Store) (now : Str) (ps : PhaseStructure)
    (k pid : Str) (row : TaskRow)
    (hrow : lookupRow st k = some row)
    (hbad : row.notes = none ∨ ∃ ns, row.notes = some ns ∧ jsonLoads ns = none) :
    migrate_task_to_phase st now ps k pid = none := by
  unfold migrate_task_to_phase
  rcases hbad with hb | ⟨ns, hns, hj⟩
  · simp [hrow, hb]
  · simp [hrow, hns, hj]

theorem lookupRow_migrateFold (asg : List (Str × Str)) (st : Store) (now : Str)
    (ps : PhaseStructure) (k : Str) (row : TaskRow)
    (hrow : lookupRow st k = some row)
    (hbad : row.notes = none ∨ ∃ ns, row.notes = some ns ∧ jsonLoads ns = none) :
    lookupRow (asg.foldl (fun s kv =>
      match migrate_task_to_phase s now ps kv.1 kv.2 with
      | some s2 => s2
      | none => s) st) k = some row := by
  induction asg generalizing st with
  | nil => exact hrow
  | cons kv asg' ih =>
    rw [List.foldl_cons]
    rcases hm : migrate_task_to_phase st now ps kv.1 kv.2 with _ | s2
    · exact ih _ hrow
    · by_cases hk : kv.1 = k
      · rw [hk] at hm
        rw [migrate_bad_notes_none st now ps k kv.2 row hrow hbad] at hm
        cases hm
      · obtain ⟨f, hf, rfl⟩ := migrate_some_shape st now ps kv.1 kv.2 s2 hm
        have : lookupRow (updateRow st kv.1 f) k = some row := by
          rw [lookupRow_updateRow_ne st kv.1 k f hf (fun hh => hk hh.symm)]
          exact hrow
        exact ih _ this

/-! ## Claim 10: NULL or invalid stored notes -/

/-- C10: a task whose stored notes field is NULL or not valid JSON makes
its per-task reparenting raise internally; the exception is caught and
reported as a per-task failure (`none`, counted as not-migrated), the
task's row keeps its old parent and notes through the whole migration
step, and the step still commits and reports overall success. -/
theorem claim10_bad_notes_task_skipped (st : Store) (now : Str) (ps : PhaseStructure)
    (k pid : Str) (row : TaskRow)
    (hrow : lookupRow st k = some row)
    (hbad : row.notes = none ∨ ∃ ns, row.notes = some ns ∧ jsonLoads ns = none) :
    migrate_task_to_phase st now ps k pid = none
    ∧ (execute_migration false st now ps).1 = true
    ∧ lookupRow (execute_migration false st now ps).2 k = some row := by
  refine ⟨migrate_bad_notes_none st now ps k pid row hrow hbad, rfl, ?_⟩
  show lookupRow (ps.phase_assignments.foldl _
    (ps.recommended_phases.foldl (fun s p => create_phase s now p) st)) k = some row
  exact lookupRow_migrateFold ps.phase_assignments _ now ps k row
    (lookupRow_createFold ps.recommended_phases st now k row hrow) hbad

/-- Witness for C10 at a concrete store: task `b1` has NULL notes and is
skipped unchanged, while the migration reports success and the healthy
task `b2` is in fact updated (committed). -/
theorem claim10_bad_notes_task_skipped_witness :
    (migrate_task_to_phase storeC10 nowW psC10 taskBadNotes.task_id pFoundation = none
      ∧ (execute_migration false storeC10 nowW psC10).1 = true
      ∧ lookupRow (execute_migration false storeC10 nowW psC10).2 taskBadNotes.task_id
          = some taskBadNotes)
    ∧ lookupRow (execute_migration false storeC10 nowW psC10).2 taskGoodNotes.task_id
        ≠ some taskGoodNotes :=
  ⟨claim10_bad_notes_task_skipped storeC10 nowW psC10 taskBadNotes.task_id pFoundation
      taskBadNotes (by rfl) (Or.inl rfl),
   by decide⟩

/-! ## Claim 5: the reparenting rule -/

/-- C5: during a successful per-task reparenting (row found, stored notes
a parseable JSON array), the task with a NULL parent gets its assigned
phase id as the new parent; a parent assigned to the same phase is kept;
a parent assigned to a different phase (or with no known assignment) is
replaced by the task's own assigned phase id; and exactly one audit note
is appended to the stored note list (existing notes kept). -/
theorem claim5_reparenting (st : Store) (now : Str) (ps : PhaseStructure)
    (taskId phaseId : Str) (row : TaskRow) (ns : Str) (cur : List PyValue)
    (hrow : lookupRow st taskId = some row)
    (hns : row.notes = some ns)
    (hcur : jsonLoads ns = some (PyValue.list cur)) :
    ∃ st' note row',
      migrate_task_to_phase st now ps taskId phaseId = some st'
      ∧ lookupRow st' taskId = some row'
      ∧ row'.notes = some (jsonDumps (PyValue.list (cur ++ [note])))
      ∧ (row.parent_task = none → row'.parent_task = some phaseId)
      ∧ (∀ p, row.parent_task = some p →
          dictGet? ps.phase_assignments p = some phaseId → row'.parent_task = some p)
      ∧ (∀ p, row.parent_task = some p →
          dictGet? ps.phase_assignments p ≠ some phaseId →
            row'.parent_task = some phaseId) := by
  simp only [migrate_task_to_phase, hrow, hns, hcur]
  refine ⟨_, _, _, rfl,
    lookupRow_updateRow_self st taskId _ row (fun r => rfl) hrow, rfl, ?_, ?_, ?_⟩
  · intro hp
    simp [hp]
  · intro p hp hget
    simp [hp, hget]
  · intro p hp hget
    have hb : (dictGet? ps.phase_assignments p == some phaseId) = false :=
      beq_eq_false_iff_ne.mpr hget
    simp [hp, hb]

/-- Witness for C5 at a concrete store: task `c1` has parent `par1`,
assigned to a different phase than `c1`, so the parent is rewritten. -/
theorem claim5_reparenting_witness :
    ∃ st' note row',
      migrate_task_to_phase storeC5 nowW psC5 ("c1".toList) pFoundation = some st'
      ∧ lookupRow st' ("c1".toList) = some row'
      ∧ row'.notes = some (jsonDumps (PyValue.list (([] : List PyValue) ++ [note])))
      ∧ (taskChild.parent_task = none → row'.parent_task = some pFoundation)
      ∧ (∀ p, taskChild.parent_task = some p →
          dictGet? psC5.phase_assignments p = some pFoundation → row'.parent_task = some p)
      ∧ (∀ p, taskChild.parent_task = some p →
          dictGet? psC5.phase_assignments p ≠ some pFoundation →
            row'.parent_task = some pFoundation) :=
  claim5_reparenting storeC5 nowW psC5 ("c1".toList) pFoundation taskChild
    ("[]".toList) [] (by rfl) (by rfl) (by rfl)

/-! ## Bucket disjointness lemmas -/

theorem sublist_buckets_core_coord (ca : ComplexityAnalysis) :
    (ca.core_functionality_tasks ++ coordinationTasks ca).Sublist (allBuckets ca) := by
  unfold allBuckets coordinationTasks
  simp only [List.append_assoc]
  refine List.Sublist.trans ?_ (List.sublist_append_right _ _)
  refine List.Sublist.append (List.Sublist.refl _) ?_
  refine List.Sublist.append (List.Sublist.refl _) ?_
  refine List.Sublist.append (List.Sublist.refl _) ?_
  exact List.Sublist.trans (List.filter_sublist _) (List.sublist_append_right _ _)

theorem sublist_buckets_core_opt (ca : ComplexityAnalysis) :
    (ca.core_functionality_tasks ++ ca.optimization_tasks).Sublist (allBuckets ca) := by
  unfold allBuckets
  simp only [List.append_assoc]
  refine List.Sublist.trans ?_ (List.sublist_append_right _ _)
  refine List.Sublist.append (List.Sublist.refl _) ?_
  refine List.Sublist.trans ?_ (List.sublist_append_right _ _)
  refine List.Sublist.trans ?_ (List.sublist_append_right _ _)
  exact List.sublist_append_left _ _

theorem disjoint_ids_of_sublist (ca : ComplexityAnalysis) (a b : List TaskRow)
    (hsub : (a ++ b).Sublist (allBuckets ca))
    (hnd : ((allBuckets ca).map (fun t => t.task_id)).Nodup)
    (t : TaskRow) (ht : t ∈ a) :
    t.task_id ∉ b.map (fun u => u.task_id) := by
  intro hmem
  have hnd2 : ((a ++ b).map (fun t => t.task_id)).Nodup :=
    List.Nodup.sublist (List.Sublist.map _ hsub) hnd
  rw [List.map_append] at hnd2
  exact (List.disjoint_of_nodup_append hnd2)
    (List.mem_map.mpr ⟨t, ht, rfl⟩) hmem

theorem core_id_not_in_coord (ca : ComplexityAnalysis)
    (hnd : ((allBuckets ca).map (fun t => t.task_id)).Nodup)
    (t : TaskRow) (ht : t ∈ ca.core_functionality_tasks) :
    t.task_id ∉ (coordinationTasks ca).map (fun u => u.task_id) :=
  disjoint_ids_of_sublist ca _ _ (sublist_buckets_core_coord ca) hnd t ht

theorem core_id_not_in_opt (ca : ComplexityAnalysis)
    (hnd : ((allBuckets ca).map (fun t => t.task_id)).Nodup)
    (t : TaskRow) (ht : t ∈ ca.core_functionality_tasks) :
    t.task_id ∉ ca.optimization_tasks.map (fun u => u.task_id) :=
  disjoint_ids_of_sublist ca _ _ (sublist_buckets_core_opt ca) hnd t ht

/-! ## Claim 6: the Intelligence threshold -/

/-- C6: on a layer partition (distinct task ids across the six buckets)
with exactly 2 core-functionality tasks, no Intelligence phase is
recommended and both tasks are assigned `phase_1_foundation`; with 3 or
more, an Intelligence phase is recommended whose task list is exactly the
core-functionality bucket, and each of those tasks is assigned
`phase_2_intelligence`. -/
theorem claim6_intelligence_threshold (ca : ComplexityAnalysis)
    (hnd : ((allBuckets ca).map (fun t => t.task_id)).Nodup) :
    (ca.core_functionality_tasks.length = 2 →
      (∀ p ∈ recommendedPhases ca, p.phase_id ≠ pIntelligence)
      ∧ ∀ t ∈ ca.core_functionality_tasks,
          dictGet? (phaseAssignments ca) t.task_id = some pFoundation)
    ∧ (3 ≤ ca.core_functionality_tasks.length →
      (∃ p ∈ recommendedPhases ca,
          p.phase_id = pIntelligence ∧ p.tasks = ca.core_functionality_tasks)
      ∧ ∀ t ∈ ca.core_functionality_tasks,
          dictGet? (phaseAssignments ca) t.task_id = some pIntelligence) := by
  constructor
  · intro hlen
    have h3 : ¬ 3 ≤ ca.core_functionality_tasks.length := by omega
    constructor
    · intro p hp
      unfold recommendedPhases recsFIC at hp
      rw [if_neg h3] at hp
      simp only [List.append_nil, List.nil_append, List.mem_append] at hp
      have hf : p = foundationRec ca ∨ p = coordinationRec ca ∨ p = optimizationRec ca := by
        rcases hp with (hp | hp) | hp <;> split_ifs at hp <;>
          simp only [List.mem_singleton, List.not_mem_nil] at hp <;> tauto
      rcases hf with rfl | rfl | rfl
      · exact (by decide : pFoundation ≠ pIntelligence)
      · exact (by decide : pCoordination ≠ pIntelligence)
      · exact (by decide : pOptimization ≠ pIntelligence)
    · intro t ht
      unfold phaseAssignments
      rw [dictGet?_assignAll_not_mem _ _ _ _ (core_id_not_in_opt ca hnd t ht),
        dictGet?_assignAll_not_mem _ _ _ _ (core_id_not_in_coord ca hnd t ht),
        dictGet?_assignAll_mem _ _ _ _ (List.mem_map.mpr ⟨t, ht, rfl⟩)]
      unfold intTarget
      rw [if_neg h3]
  · intro hlen
    constructor
    · refine ⟨intelligenceRec ca, ?_, rfl, rfl⟩
      unfold recommendedPhases recsFIC
      rw [if_pos hlen]
      simp [List.mem_append]
    · intro t ht
      unfold phaseAssignments
      rw [dictGet?_assignAll_not_mem _ _ _ _ (core_id_not_in_opt ca hnd t ht),
        dictGet?_assignAll_not_mem _ _ _ _ (core_id_not_in_coord ca hnd t ht),
        dictGet?_assignAll_mem _ _ _ _ (List.mem_map.mpr ⟨t, ht, rfl⟩)]
      unfold intTarget
      rw [if_pos hlen]

/-- Witness for C6: with exactly two core tasks no Intelligence phase is
recommended and both go to Foundation; with three, the Intelligence phase
is recommended containing all three, each assigned to it. -/
theorem claim6_intelligence_threshold_witness :
    ((∀ p ∈ recommendedPhases caTwoCore, p.phase_id ≠ pIntelligence)
      ∧ ∀ t ∈ caTwoCore.core_functionality_tasks,
          dictGet? (phaseAssignments caTwoCore) t.task_id = some pFoundation)
    ∧ ((∃ p ∈ recommendedPhases caThreeCore,
          p.phase_id = pIntelligence ∧ p.tasks = caThreeCore.core_functionality_tasks)
      ∧ ∀ t ∈ caThreeCore.core_functionality_tasks,
          dictGet? (phaseAssignments caThreeCore) t.task_id = some pIntelligence) :=
  ⟨(claim6_intelligence_threshold caTwoCore (by decide)).1 (by decide),
   (claim6_intelligence_threshold caThreeCore (by decide)).2 (by decide)⟩

/-! ## Classifier-derived facts about unclassified tasks -/

theorem classify_unclassified_no_ui (t : TaskRow)
    (h : classifyLayer t = Layer.unclassified) :
    anyKw userInterfaceKws (taskText t) = false := by
  simp only [classifyLayer] at h
  split_ifs at h <;> simp_all [Bool.not_eq_true]

theorem uncl_to_coordination_false (t : TaskRow)
    (h : classifyLayer t = Layer.unclassified) :
    unclToCoordination t = false := by
  have hui := classify_unclassified_no_ui t h
  unfold unclToCoordination
  suffices hs : anyKw (["page", "ui", "interface", "component"].map String.toList)
      (lowerStr t.title) = false by
    rw [hs]
    simp
  cases hx : anyKw (["page", "ui", "interface", "component"].map String.toList)
      (lowerStr t.title) with
  | false => rfl
  | true =>
    exfalso
    obtain ⟨kw, hkw, hhas⟩ := List.any_eq_true.mp hx
    have hkw2 : kw ∈ userInterfaceKws := by
      simp only [List.map_cons, List.map_nil, List.mem_cons, List.not_mem_nil,
        or_false] at hkw
      rcases hkw with rfl | rfl | rfl | rfl <;> decide
    have htext : strHas (taskText t) kw = true :=
      strHas_append_left kw (lowerStr t.description)
        (strHas_append_left kw (" ".toList) hhas)
    have hany : anyKw userInterfaceKws (taskText t) = true :=
      List.any_eq_true.mpr ⟨kw, hkw2, htext⟩
    rw [hui] at hany
    cases hany

/-- For classifier output the unclassified redistribution never feeds the
coordination list: an unclassified task has no UI keyword in its text,
hence none in its title. -/
theorem coordinationTasks_classifier (tasks : List TaskRow) :
    coordinationTasks (analyze_task_complexity_layers tasks)
      = (analyze_task_complexity_layers tasks).user_interface_tasks
        ++ (analyze_task_complexity_layers tasks).integration_tasks := by
  unfold coordinationTasks
  have hnil : (analyze_task_complexity_layers tasks).unclassified_tasks.filter
      unclToCoordination = [] := by
    rw [List.filter_eq_nil_iff]
    intro t ht
    have hcl : classifyLayer t = Layer.unclassified := by
      have h2 := (List.mem_filter.mp ht).2
      simpa using h2
    simp [uncl_to_coordination_false t hcl]
  rw [hnil, List.append_nil]

theorem ui_integ_id_not_in_opt (tasks : List TaskRow)
    (hnd : (tasks.map (fun t => t.task_id)).Nodup)
    (t : TaskRow)
    (ht : t ∈ (analyze_task_complexity_layers tasks).user_interface_tasks
        ++ (analyze_task_complexity_layers tasks).integration_tasks) :
    t.task_id ∉ (analyze_task_complexity_layers tasks).optimization_tasks.map
      (fun u => u.task_id) := by
  intro hmem
  obtain ⟨u, hu, he⟩ := List.mem_map.mp hmem
  have hu2 := List.mem_filter.mp hu
  have hcu : classifyLayer u = Layer.optimization := by simpa using hu2.2
  have ht2 : t ∈ tasks ∧ (classifyLayer t = Layer.user_interface
      ∨ classifyLayer t = Layer.integration) := by
    rcases List.mem_append.mp ht with h | h
    · have h2 := List.mem_filter.mp h
      exact ⟨h2.1, Or.inl (by simpa using h2.2)⟩
    · have h2 := List.mem_filter.mp h
      exact ⟨h2.1, Or.inr (by simpa using h2.2)⟩
  have heq : u = t := List.inj_on_of_nodup_map hnd hu2.1 ht2.1 he
  rcases ht2.2 with hc | hc <;> rw [heq, hc] at hcu <;> cases hcu

/-! ## Claim 3: the Coordination threshold and its fallback -/

/-- C3 (amended): on classifier output with fewer than 5 combined
user_interface and integration tasks, no Coordination phase is
recommended, and each of those tasks is assigned to
`phase_2_intelligence` when the core_functionality bucket is non-empty
(whether or not an Intelligence phase was actually created), else to
`phase_1_foundation`. -/
theorem claim3_coordination_fallback_amended (tasks : List TaskRow)
    (hnd : (tasks.map (fun t => t.task_id)).Nodup)
    (hlen : ((analyze_task_complexity_layers tasks).user_interface_tasks
        ++ (analyze_task_complexity_layers tasks).integration_tasks).length < 5) :
    (∀ p ∈ recommendedPhases (analyze_task_complexity_layers tasks),
        p.phase_id ≠ pCoordination)
    ∧ ∀ t ∈ (analyze_task_complexity_layers tasks).user_interface_tasks
          ++ (analyze_task_complexity_layers tasks).integration_tasks,
        dictGet? (phaseAssignments (analyze_task_complexity_layers tasks)) t.task_id
          = some (if (analyze_task_complexity_layers tasks).core_functionality_tasks = []
              then pFoundation else pIntelligence) := by
  have hcoord := coordinationTasks_classifier tasks
  have hlen5 : ¬ 5 ≤ (coordinationTasks (analyze_task_complexity_layers tasks)).length := by
    rw [hcoord]
    omega
  constructor
  · intro p hp
    unfold recommendedPhases recsFIC at hp
    rw [if_neg hlen5] at hp
    simp only [List.append_nil, List.nil_append, List.mem_append] at hp
    have hf : p = foundationRec (analyze_task_complexity_layers tasks)
        ∨ p = intelligenceRec (analyze_task_complexity_layers tasks)
        ∨ p = optimizationRec (analyze_task_complexity_layers tasks) := by
      rcases hp with (hp | hp) | hp <;> split_ifs at hp <;>
        simp only [List.mem_singleton, List.not_mem_nil] at hp <;> tauto
    rcases hf with rfl | rfl | rfl
    · exact (by decide : pFoundation ≠ pCoordination)
    · exact (by decide : pIntelligence ≠ pCoordination)
    · exact (by decide : pOptimization ≠ pCoordination)
  · intro t ht
    unfold phaseAssignments
    rw [dictGet?_assignAll_not_mem _ _ _ _ (ui_integ_id_not_in_opt tasks hnd t ht),
      dictGet?_assignAll_mem _ _ _ _
        (by rw [hcoord]; exact List.mem_map.mpr ⟨t, ht, rfl⟩)]
    unfold coordTarget
    rw [if_neg hlen5]

/-- Counterexample to C3 as stated: with one core task ("algorithm") and
one UI task ("button"), no Intelligence phase exists (the recommended
phase list is empty), yet the UI task is assigned to
`phase_2_intelligence` instead of Foundation: the fallback tests the
bucket, not phase existence. -/
theorem claim3_coordination_fallback_counterexample :
    recommendedPhases (analyze_task_complexity_layers [taskAlg2, taskButton]) = []
    ∧ dictGet? (phaseAssignments (analyze_task_complexity_layers [taskAlg2, taskButton]))
        taskButton.task_id = some pIntelligence := by
  constructor
  · decide
  · decide

/-- Witness for the amended C3 at the same concrete two-task store. -/
theorem claim3_coordination_fallback_witness :
    (∀ p ∈ recommendedPhases (analyze_task_complexity_layers [taskAlg2, taskButton]),
        p.phase_id ≠ pCoordination)
    ∧ ∀ t ∈ (analyze_task_complexity_layers [taskAlg2, taskButton]).user_interface_tasks
          ++ (analyze_task_complexity_layers [taskAlg2, taskButton]).integration_tasks,
        dictGet? (phaseAssignments (analyze_task_complexity_layers [taskAlg2, taskButton]))
            t.task_id
          = some (if (analyze_task_complexity_layers
                [taskAlg2, taskButton]).core_functionality_tasks = []
              then pFoundation else pIntelligence) :=
  claim3_coordination_fallback_amended [taskAlg2, taskButton] (by decide) (by decide)

/-! ## Claim 1: totality of the phase assignment -/

theorem uncl_split (t : TaskRow) (h : unclToFoundation t = false) :
    unclToCoordination t = true := by
  unfold unclToFoundation at h
  unfold unclToCoordination
  cases hc : (t.status == ("completed".toList)) <;> rw [hc] at h
  · rw [Bool.false_or] at h
    rw [Bool.not_eq_false'] at h
    rw [h]
    rfl
  · rw [Bool.true_or] at h
    cases h

/-- Membership of a task id in one of the four assigned lists is the same
as membership in the input task list. -/
theorem assigned_lists_cover (tasks : List TaskRow) (id : Str) :
    (id ∈ (foundationTasks (analyze_task_complexity_layers tasks)).map (fun t => t.task_id)
      ∨ id ∈ (analyze_task_complexity_layers tasks).core_functionality_tasks.map (fun t => t.task_id)
      ∨ id ∈ (coordinationTasks (analyze_task_complexity_layers tasks)).map (fun t => t.task_id)
      ∨ id ∈ (analyze_task_complexity_layers tasks).optimization_tasks.map (fun t => t.task_id))
    ↔ id ∈ tasks.map (fun t => t.task_id) := by
  constructor
  · intro h
    have hsub : ∀ u : TaskRow,
        (u ∈ foundationTasks (analyze_task_complexity_layers tasks)
          ∨ u ∈ (analyze_task_complexity_layers tasks).core_functionality_tasks
          ∨ u ∈ coordinationTasks (analyze_task_complexity_layers tasks)
          ∨ u ∈ (analyze_task_complexity_layers tasks).optimization_tasks) → u ∈ tasks := by
      intro u hu
      rcases hu with hu | hu | hu | hu
      · rcases List.mem_append.mp hu with h2 | h2
        · exact (List.mem_filter.mp h2).1
        · exact (List.mem_filter.mp (List.mem_filter.mp h2).1).1
      · exact (List.mem_filter.mp hu).1
      · rcases List.mem_append.mp hu with h2 | h2
        · rcases List.mem_append.mp h2 with h3 | h3
          · exact (List.mem_filter.mp h3).1
          · exact (List.mem_filter.mp h3).1
        · exact (List.mem_filter.mp (List.mem_filter.mp h2).1).1
      · exact (List.mem_filter.mp hu).1
    rcases h with h | h | h | h <;>
      · obtain ⟨u, hu, he⟩ := List.mem_map.mp h
        exact List.mem_map.mpr ⟨u, hsub u (by tauto), he⟩
  · intro h
    obtain ⟨t, ht, he⟩ := List.mem_map.mp h
    subst he
    rcases hcl : classifyLayer t with _ | _ | _ | _ | _ | _
    · exact Or.inl (List.mem_map.mpr ⟨t,
        List.mem_append.mpr (Or.inl (List.mem_filter.mpr ⟨ht, by simp [hcl]⟩)), rfl⟩)
    · exact Or.inr (Or.inl (List.mem_map.mpr ⟨t, List.mem_filter.mpr ⟨ht, by simp [hcl]⟩, rfl⟩))
    · exact Or.inr (Or.inr (Or.inl (List.mem_map.mpr ⟨t,
        List.mem_append.mpr (Or.inl (List.mem_append.mpr (Or.inl
          (List.mem_filter.mpr ⟨ht, by simp [hcl]⟩)))), rfl⟩)))
    · exact Or.inr (Or.inr (Or.inl (List.mem_map.mpr ⟨t,
        List.mem_append.mpr (Or.inl (List.mem_append.mpr (Or.inr
          (List.mem_filter.mpr ⟨ht, by simp [hcl]⟩)))), rfl⟩)))
    · exact Or.inr (Or.inr (Or.inr (List.mem_map.mpr ⟨t,
        List.mem_filter.mpr ⟨ht, by simp [hcl]⟩, rfl⟩)))
    · by_cases hq : unclToFoundation t = true
      · exact Or.inl (List.mem_map.mpr ⟨t, List.mem_append.mpr (Or.inr
          (List.mem_filter.mpr ⟨List.mem_filter.mpr ⟨ht, by simp [hcl]⟩, hq⟩)), rfl⟩)
      · have hq2 := uncl_split t (by simpa using hq)
        exact Or.inr (Or.inr (Or.inl (List.mem_map.mpr ⟨t,
          List.mem_append.mpr (Or.inr (List.mem_filter.mpr
            ⟨List.mem_filter.mpr ⟨ht, by simp [hcl]⟩, hq2⟩)), rfl⟩)))

/-- C1 (amended): for every non-empty input task list, the
phase-assignment mapping has exactly one entry per input task id (its
keys are duplicate-free and are exactly the input ids), and every
assigned phase id is either the id of a recommended phase or one of the
merge fallback targets `phase_1_foundation` / `phase_2_intelligence`
(which need not appear in the recommended list). -/
theorem claim1_phase_assignment_amended (tasks : List TaskRow) (hne : tasks ≠ []) :
    (dictKeys (phaseAssignments (analyze_task_complexity_layers tasks))).Nodup
    ∧ (∀ id, id ∈ dictKeys (phaseAssignments (analyze_task_complexity_layers tasks))
        ↔ id ∈ tasks.map (fun t => t.task_id))
    ∧ ∀ kv ∈ phaseAssignments (analyze_task_complexity_layers tasks),
        kv.2 ∈ (recommendedPhases (analyze_task_complexity_layers tasks)).map
            (fun p => p.phase_id)
          ∨ kv.2 = pFoundation ∨ kv.2 = pIntelligence := by
  refine ⟨?_, ?_, ?_⟩
  · unfold phaseAssignments
    exact nodup_dictKeys_assignAll _ _ _ (nodup_dictKeys_assignAll _ _ _
      (nodup_dictKeys_assignAll _ _ _ (nodup_dictKeys_assignAll _ _ _ (by simp [dictKeys]))))
  · intro id
    unfold phaseAssignments
    rw [mem_dictKeys_assignAll, mem_dictKeys_assignAll, mem_dictKeys_assignAll,
      mem_dictKeys_assignAll]
    have hcov := assigned_lists_cover tasks id
    have hnil : id ∈ dictKeys ([] : List (Str × Str)) ↔ False := by simp [dictKeys]
    constructor
    · intro h
      apply hcov.mp
      tauto
    · intro h
      have h2 := hcov.mpr h
      tauto
  · intro kv hkv
    unfold phaseAssignments at hkv
    rcases mem_assignAll _ _ _ _ hkv with hv | hkv
    · -- optTarget
      rw [hv]
      unfold optTarget
      split_ifs with h2
      · refine Or.inl (List.mem_map.mpr
          ⟨optimizationRec (analyze_task_complexity_layers tasks), ?_, rfl⟩)
        unfold recommendedPhases
        rw [if_pos h2]
        exact List.mem_append.mpr (Or.inr (List.mem_singleton.mpr rfl))
      · rcases hgl : (recsFIC (analyze_task_complexity_layers tasks)).getLast? with _ | p
        · exact Or.inr (Or.inl rfl)
        · refine Or.inl (List.mem_map.mpr ⟨p, ?_, rfl⟩)
          unfold recommendedPhases
          exact List.mem_append.mpr (Or.inl (List.mem_of_mem_getLast? hgl))
    rcases mem_assignAll _ _ _ _ hkv with hv | hkv
    · -- coordTarget
      rw [hv]
      unfold coordTarget
      split_ifs with h5 hc
      · refine Or.inl (List.mem_map.mpr
          ⟨coordinationRec (analyze_task_complexity_layers tasks), ?_, rfl⟩)
        unfold recommendedPhases recsFIC
        rw [if_pos h5]
        refine List.mem_append.mpr (Or.inl (List.mem_append.mpr (Or.inr ?_)))
        exact List.mem_singleton.mpr rfl
      · exact Or.inr (Or.inl rfl)
      · exact Or.inr (Or.inr rfl)
    rcases mem_assignAll _ _ _ _ hkv with hv | hkv
    · -- intTarget
      rw [hv]
      unfold intTarget
      split_ifs
      · exact Or.inr (Or.inr rfl)
      · exact Or.inr (Or.inl rfl)
    rcases mem_assignAll _ _ _ _ hkv with hv | hkv
    · exact Or.inr (Or.inl hv)
    · cases hkv

/-- Counterexample to C1 as stated: with a single core-functionality task
("algorithm"), the assignment maps the task to `phase_1_foundation` while
the recommended phase list is empty, so the mapped id is not the id of
any recommended phase. -/
theorem claim1_phase_assignment_counterexample :
    dictGet? (phaseAssignments (analyze_task_complexity_layers [taskAlg]))
        taskAlg.task_id = some pFoundation
    ∧ recommendedPhases (analyze_task_complexity_layers [taskAlg]) = [] := by
  constructor
  · decide
  · decide

/-- Witness for the amended C1 at a concrete one-task store. -/
theorem claim1_phase_assignment_witness :
    (dictKeys (phaseAssignments (analyze_task_complexity_layers [taskSetup]))).Nodup
    ∧ (∀ id, id ∈ dictKeys (phaseAssignments (analyze_task_complexity_layers [taskSetup]))
        ↔ id ∈ [taskSetup].map (fun t => t.task_id))
    ∧ ∀ kv ∈ phaseAssignments (analyze_task_complexity_layers [taskSetup]),
        kv.2 ∈ (recommendedPhases (analyze_task_complexity_layers [taskSetup])).map
            (fun p => p.phase_id)
          ∨ kv.2 = pFoundation ∨ kv.2 = pIntelligence :=
  claim1_phase_assignment_amended [taskSetup] (by simp)

/-! ## Claim 4: failure handling of the entry point -/

theorem needs_migration_noFail_eq (st : Store) :
    needs_migration false st
      = (((st.tasks.filter (fun r => likePhase r.task_id)).length == 0)
          && !st.tasks.isEmpty) := rfl

/-- C4 (amended): the entry point returns false iff the needed-check did
not fail and reported migration needed, the task load did not fail, and
the phase-persistence/reparenting step failed.  In particular a store
failure during the initial needed-check or the task load makes the run
return true (treated as no migration needed), and failures during
dependency fixing or audit recording are swallowed with the run still
returning true. -/
theorem claim4_failure_result_amended (fs : FailSpec) (now : Str) (st : Store) :
    (runMigration fs now st).1 = false
      ↔ (fs.failNeedsCheck = false ∧ needs_migration false st = true
          ∧ fs.failLoad = false ∧ fs.failExecute = true) := by
  unfold runMigration
  cases hnc : fs.failNeedsCheck
  · cases hnm : needs_migration false st
    · simp [hnm]
    · have hne : st.tasks.isEmpty = false := by
        rw [needs_migration_noFail_eq] at hnm
        rcases Bool.and_eq_true_iff.mp hnm with ⟨_, h2⟩
        simpa using h2
      cases hl : fs.failLoad
      · cases he : fs.failExecute
        · simp [needs_migration, hnm, load_all_tasks, hne, execute_migration]
        · simp [needs_migration, hnm, load_all_tasks, hne, execute_migration]
      · simp [needs_migration, hnm, load_all_tasks]
  · simp [needs_migration]

/-- Counterexample to C4 as stated: with a store that does need migration,
a store failure during the initial needed-check is caught inside
`_needs_migration` (which reports `False`), and the entry point returns
true — not the overall false the claim requires for a failure in any
phase of the pipeline. -/
theorem claim4_failure_result_counterexample :
    runMigration failNeedsOnly nowW storeC4 = (true, storeC4)
    ∧ needs_migration false storeC4 = true := by
  constructor
  · rfl
  · decide

/-! ## Claim 2: idempotence of the entry point -/

theorem needs_migration_false_of_hasPhaseRow (b : Bool) (st : Store)
    (h : hasPhaseRow st = true) : needs_migration b st = false := by
  obtain ⟨r, hr, hlp⟩ := List.any_eq_true.mp h
  have hmem : r ∈ st.tasks.filter (fun r => likePhase r.task_id) :=
    List.mem_filter.mpr ⟨hr, hlp⟩
  have hlen : (st.tasks.filter (fun r => likePhase r.task_id)).length ≠ 0 := by
    intro h0
    rw [List.length_eq_zero] at h0
    rw [h0] at hmem
    cases hmem
  have hb : ((st.tasks.filter (fun r => likePhase r.task_id)).length == 0) = false := by
    simpa using hlen
  cases b
  · unfold needs_migration
    simp [hb]
  · rfl

theorem hasPhaseRow_create (st : Store) (now : Str) (p : PhaseRec)
    (hlp : likePhase p.phase_id = true) :
    hasPhaseRow (create_phase st now p) = true := by
  unfold create_phase
  by_cases hex : (lookupRow st p.phase_id).isSome = true
  · rw [if_pos hex]
    unfold lookupRow at hex
    obtain ⟨row, hfind⟩ := Option.isSome_iff_exists.mp hex
    have hmem := List.mem_of_find?_eq_some hfind
    have hbeq := List.find?_some hfind
    unfold hasPhaseRow
    rw [List.any_eq_true]
    refine ⟨row, hmem, ?_⟩
    rw [beq_iff_eq.mp hbeq]
    exact hlp
  · rw [if_neg hex]
    unfold hasPhaseRow
    rw [List.any_eq_true]
    exact ⟨_, List.mem_append.mpr (Or.inr (List.mem_singleton.mpr rfl)), hlp⟩

theorem hasPhaseRow_create_mono (st : Store) (now : Str) (p : PhaseRec)
    (h : hasPhaseRow st = true) :
    hasPhaseRow (create_phase st now p) = true := by
  unfold create_phase
  by_cases hex : (lookupRow st p.phase_id).isSome = true
  · rw [if_pos hex]
    exact h
  · rw [if_neg hex]
    unfold hasPhaseRow at h ⊢
    rw [List.any_append, h]
    rfl

theorem hasPhaseRow_createFold_mono (recs : List PhaseRec) (st : Store) (now : Str)
    (h : hasPhaseRow st = true) :
    hasPhaseRow (recs.foldl (fun s p => create_phase s now p) st) = true := by
  induction recs generalizing st with
  | nil => exact h
  | cons p recs' ih => exact ih _ (hasPhaseRow_create_mono st now p h)

theorem hasPhaseRow_updateRow (st : Store) (id : Str) (f : TaskRow → TaskRow)
    (hf : ∀ r, (f r).task_id = r.task_id) :
    hasPhaseRow (updateRow st id f) = hasPhaseRow st := by
  unfold hasPhaseRow updateRow
  rw [List.any_map]
  have hpt : ((fun r => likePhase r.task_id)
      ∘ (fun r => if r.task_id == id then f r else r)) = fun r => likePhase r.task_id := by
    funext r
    by_cases hr : (r.task_id == id) = true <;> simp [Function.comp, hr, hf r]
  rw [hpt]

theorem hasPhaseRow_migrateFold (asg : List (Str × Str)) (st : Store) (now : Str)
    (ps : PhaseStructure) (h : hasPhaseRow st = true) :
    hasPhaseRow (asg.foldl (fun s kv =>
      match migrate_task_to_phase s now ps kv.1 kv.2 with
      | some s2 => s2
      | none => s) st) = true := by
  induction asg generalizing st with
  | nil => exact h
  | cons kv asg' ih =>
    rw [List.foldl_cons]
    rcases hm : migrate_task_to_phase st now ps kv.1 kv.2 with _ | s2
    · exact ih _ h
    · obtain ⟨f, hf, rfl⟩ := migrate_some_shape st now ps kv.1 kv.2 s2 hm
      refine ih _ ?_
      rw [hasPhaseRow_updateRow st kv.1 f hf]
      exact h

theorem hasPhaseRow_fixDepsGo (now : Str) (ds : List ImplicitDep) (st st' : Store)
    (h : fixDepsGo now ds st = some st') :
    hasPhaseRow st' = hasPhaseRow st := by
  induction ds generalizing st with
  | nil =>
    unfold fixDepsGo at h
    rw [(Option.some.inj h).symm]
  | cons d ds' ih =>
    unfold fixDepsGo at h
    repeat' split at h
    all_goals
      first
        | exact Option.noConfusion h
        | exact ih _ h
        | (rw [ih _ h]
           exact hasPhaseRow_updateRow _ _ _ (fun r => rfl))

theorem hasPhaseRow_fix (b : Bool) (st : Store) (now : Str)
    (deps : DependencyAnalysis) (h : hasPhaseRow st = true) :
    hasPhaseRow (fix_dependencies b st now deps) = true := by
  unfold fix_dependencies
  cases b
  · rcases hf : fixDepsGo now deps.implicit_dependencies st with _ | st2
    · simp [hf, h]
    · simp only [Bool.false_eq_true, if_false, hf]
      rw [hasPhaseRow_fixDepsGo now _ st st2 hf]
      exact h
  · simpa using h

theorem hasPhaseRow_update_status (b : Bool) (st : Store) (now : Str)
    (n : Nat) (da : DomainAnalysis) (ps : PhaseStructure) :
    hasPhaseRow (update_migration_status b st now n da ps) = hasPhaseRow st := by
  unfold update_migration_status upsertContext
  split_ifs <;> rfl

theorem recommended_id_likePhase (ca : ComplexityAnalysis) (p : PhaseRec)
    (hp : p ∈ recommendedPhases ca) : likePhase p.phase_id = true := by
  unfold recommendedPhases recsFIC at hp
  simp only [List.mem_append] at hp
  have hf : p = foundationRec ca ∨ p = intelligenceRec ca
      ∨ p = coordinationRec ca ∨ p = optimizationRec ca := by
    rcases hp with ((hp | hp) | hp) | hp <;> split_ifs at hp <;>
      simp only [List.mem_singleton, List.not_mem_nil] at hp <;> tauto
  rcases hf with rfl | rfl | rfl | rfl
  · exact (by decide : likePhase pFoundation = true)
  · exact (by decide : likePhase pIntelligence = true)
  · exact (by decide : likePhase pCoordination = true)
  · exact (by decide : likePhase pOptimization = true)

theorem run_result_hasPhaseRow (st : Store) (now : Str)
    (hg : needs_migration false st = true)
    (hrec : recommendedPhases (analyze_task_complexity_layers st.tasks) ≠ []) :
    hasPhaseRow (runMigration noFail now st).2 = true := by
  have hne : st.tasks.isEmpty = false := by
    rw [needs_migration_noFail_eq] at hg
    rcases Bool.and_eq_true_iff.mp hg with ⟨_, h2⟩
    simpa using h2
  unfold runMigration
  rw [show needs_migration noFail.failNeedsCheck st = true from hg]
  simp only [Bool.not_true, Bool.false_eq_true, if_false,
    show load_all_tasks noFail.failLoad st = st.tasks from rfl, hne]
  rw [if_pos (show (execute_migration noFail.failExecute st now
      (determine_optimal_phases (analyze_project_domain st.tasks)
        (analyze_task_complexity_layers st.tasks))).1 = true from rfl)]
  show hasPhaseRow (update_migration_status noFail.failStatus
    (fix_dependencies noFail.failFix
      (execute_migration noFail.failExecute st now
        (determine_optimal_phases (analyze_project_domain st.tasks)
          (analyze_task_complexity_layers st.tasks))).2
      now (analyze_task_dependencies st.tasks))
    now st.tasks.length (analyze_project_domain st.tasks)
    (determine_optimal_phases (analyze_project_domain st.tasks)
      (analyze_task_complexity_layers st.tasks))) = true
  rw [hasPhaseRow_update_status]
  apply hasPhaseRow_fix
  show hasPhaseRow
    ((determine_optimal_phases (analyze_project_domain st.tasks)
        (analyze_task_complexity_layers st.tasks)).phase_assignments.foldl _
      ((determine_optimal_phases (analyze_project_domain st.tasks)
          (analyze_task_complexity_layers st.tasks)).recommended_phases.foldl
        (fun s p => create_phase s now p) st)) = true
  apply hasPhaseRow_migrateFold
  rcases hrecs : recommendedPhases (analyze_task_complexity_layers st.tasks)
    with _ | ⟨p, rest⟩
  · exact absurd hrecs hrec
  · show hasPhaseRow ((recommendedPhases
      (analyze_task_complexity_layers st.tasks)).foldl
        (fun s p => create_phase s now p) st) = true
    rw [hrecs, List.foldl_cons]
    refine hasPhaseRow_createFold_mono rest _ now
      (hasPhaseRow_create st now p
        (recommended_id_likePhase (analyze_task_complexity_layers st.tasks) p ?_))
    rw [hrecs]
    exact List.mem_cons_self p rest

theorem runMigration_guard_false (fs : FailSpec) (now : Str) (st : Store)
    (h : needs_migration fs.failNeedsCheck st = false) :
    runMigration fs now st = (true, st) := by
  unfold runMigration
  rw [h]
  rfl

/-- C2 (amended): whenever the first run either decides no migration is
needed or recommends at least one phase (so a phase record is persisted),
a second run of the entry point is a no-op: the guard sees an existing
phase record (or an unchanged store), the second run returns true, and no
task record is modified (the store is returned unchanged). -/
theorem claim2_second_run_noop_amended (st : Store) (now now2 : Str)
    (h : needs_migration false st = false
        ∨ recommendedPhases (analyze_task_complexity_layers st.tasks) ≠ []) :
    runMigration noFail now2 (runMigration noFail now st).2
      = (true, (runMigration noFail now st).2) := by
  by_cases hg : needs_migration false st = true
  · have hrec : recommendedPhases (analyze_task_complexity_layers st.tasks) ≠ [] := by
      rcases h with h | h
      · rw [hg] at h
        cases h
      · exact h
    have hpr := run_result_hasPhaseRow st now hg hrec
    have hnm2 := needs_migration_false_of_hasPhaseRow false _ hpr
    exact runMigration_guard_false noFail now2 _ hnm2
  · have hg' : needs_migration false st = false := by simpa using hg
    have hr1 : runMigration noFail now st = (true, st) :=
      runMigration_guard_false noFail now st hg'
    rw [hr1]
    exact runMigration_guard_false noFail now2 st hg'

set_option maxRecDepth 40000

/-- Counterexample to C2 as stated: on a store with a single
core-functionality task ("algorithm") the first run creates no phase
record, so the guard does not trip: the second run re-migrates, appending
another audit note to the task, i.e. it modifies a task record (though it
still returns true). -/
theorem claim2_idempotence_counterexample :
    (runMigration noFail nowW (runMigration noFail nowW storeAlg).2).1 = true
    ∧ (runMigration noFail nowW (runMigration noFail nowW storeAlg).2).2
        ≠ (runMigration noFail nowW storeAlg).2 := by
  constructor
  · decide
  · decide

/-- Witness for the amended C2 at a concrete store whose analysis
recommends a Foundation phase. -/
theorem claim2_second_run_noop_witness :
    runMigration noFail nowW (runMigration noFail nowW storeSetup).2
      = (true, (runMigration noFail nowW storeSetup).2) :=
  claim2_second_run_noop_amended storeSetup nowW nowW (Or.inr (by decide))

end IntelligentMigration
